import Mathlib

/-!
Verification development for the ops-assistant repository.

The definitions below are a shallow embedding of the Python sources:

* `packages/core/src/database/QueryExecutor.py` — the safe query gate
  (`pyValidate`, `normalizeQuery`, `executeSafeQuery`);
* `packages/core/src/chatbot/models.py` — `Message`, `ToolCallRecord`,
  `Conversation`;
* `packages/core/src/chatbot/ChatBot.py` — context budgeting
  (`buildApiMessages`), tool execution (`executeTool`, `runToolCalls`) and the
  orchestrator loop (`runLoop`, `interpretPhase`, `processMessageEvents`).

Python strings are modelled as `String`/`List Char`; machine-level details
(tiktoken, the OpenAI client, sqlite3, wall-clock timestamps, uuid generation)
are external effects and enter the model as explicit parameters: a token
estimator `enc : String → Nat`, a database `db : String → DbResult`, a script
of provider responses `List ProviderResp`, a fresh conversation id, and a
fixed system-prompt text standing for the timestamped `get_system_prompt()`
output of one turn.
-/

namespace OpsAssistant

/-- Whitespace for Python's default `str.strip()` on ASCII input:
space, tab, newline, carriage return, vertical tab, form feed. -/
def pySpace (c : Char) : Bool :=
  c = ' ' || c = '\t' || c = '\n' || c = '\r' || c = '\x0b' || c = '\x0c'

/-- Python `str.lstrip()`. -/
def lstrip (l : List Char) : List Char := l.dropWhile pySpace

/-- Python `str.rstrip()`. -/
def rstrip (l : List Char) : List Char := (l.reverse.dropWhile pySpace).reverse

/-- Python `str.strip()`. -/
def pyStrip (l : List Char) : List Char := rstrip (lstrip l)

/-- ASCII uppercasing of one character (Python `str.upper` on ASCII input). -/
def asciiUpper (c : Char) : Char :=
  if 'a' ≤ c ∧ c ≤ 'z' then Char.ofNat (c.toNat - 32) else c

/-- ASCII lowercasing of one character. -/
def asciiLower (c : Char) : Char :=
  if 'A' ≤ c ∧ c ≤ 'Z' then Char.ofNat (c.toNat + 32) else c

/-- Python `str.upper()` on ASCII input. -/
def pyUpper (l : List Char) : List Char := l.map asciiUpper

/-- Python's `sub in s` substring test. -/
def hasSub (pat : List Char) : List Char → Bool
  | [] => decide (pat = [])
  | c :: cs => pat.isPrefixOf (c :: cs) || hasSub pat cs

/-- A regex word character (`\w`) on ASCII input: letter, digit or underscore. -/
def isWordChar (c : Char) : Bool :=
  ('A' ≤ c ∧ c ≤ 'Z') || ('a' ≤ c ∧ c ≤ 'z') || ('0' ≤ c ∧ c ≤ '9') || c = '_'

/-- `QueryExecutor._BLOCKED_KEYWORDS`. -/
def BLOCKED_KEYWORDS : List (List Char) :=
  ["INSERT", "UPDATE", "DELETE", "DROP", "ALTER", "CREATE", "ATTACH",
   "DETACH", "PRAGMA", "GRANT", "REVOKE"].map String.data

/-- Drop a case-insensitive occurrence of `kw` from the front of `l`,
returning the remainder, or `none` when `kw` is not a case-insensitive
prefix of `l`. -/
def ciPrefixRem : List Char → List Char → Option (List Char)
  | [], l => some l
  | _ :: _, [] => none
  | k :: ks, c :: cs => if asciiLower k = asciiLower c then ciPrefixRem ks cs else none

/-- The `\b` condition looking left: position 0, or the previous character is
not a word character. -/
def boundaryOk : Option Char → Bool
  | none => true
  | some c => !isWordChar c

/-- Does `kw` match case-insensitively at the front of `l`, with a word
boundary after the match? -/
def kwMatch (kw : List Char) (l : List Char) : Bool :=
  match ciPrefixRem kw l with
  | some [] => true
  | some (c :: _) => !isWordChar c
  | none => false

/-- One position of `QueryExecutor._BLOCKED_PATTERN.search`: with `prev` the
character before this position, try the alternatives in order and return the
matched text (`match.group()`, in the original case). -/
def tryKeywords (prev : Option Char) (l : List Char) : Option (List Char) :=
  if boundaryOk prev then
    match BLOCKED_KEYWORDS.find? (fun kw => kwMatch kw l) with
    | some kw => some (l.take kw.length)
    | none => none
  else none

/-- Left-to-right scan of `QueryExecutor._BLOCKED_PATTERN.search`. -/
def scanBlocked (prev : Option Char) : List Char → Option (List Char)
  | [] => none
  | c :: cs =>
    match tryKeywords prev (c :: cs) with
    | some m => some m
    | none => scanBlocked (some c) cs

/-- `QueryExecutor._BLOCKED_PATTERN.search(s)`: the first (leftmost)
whole-word, case-insensitive occurrence of a blocked keyword. -/
def findBlocked (l : List Char) : Option (List Char) := scanBlocked none l

/-- Checks 2–5 of `QueryExecutor._validate_query`, on the stripped query. -/
def pyValidateStripped (stripped : List Char) : Option String :=
  if "SELECT".data.isPrefixOf (pyUpper stripped) = false then
    some ("Only SELECT queries are allowed. Received query starting with: '"
      ++ String.mk (stripped.takeWhile (fun c => !pySpace c)) ++ "'")
  else if hasSub ";".data stripped then
    some "Query must not contain semicolons. Multiple statements are not allowed."
  else
    match findBlocked stripped with
    | some m =>
      some ("Query contains a blocked keyword: '" ++ String.mk m
        ++ "'. Only read-only SELECT queries are permitted.")
    | none =>
      if hasSub "--".data stripped || hasSub "/*".data stripped then
        some "Query must not contain SQL comments (-- or /*). These are not allowed for security reasons."
      else none

/-- `QueryExecutor._validate_query`: `some reason` models the `ValueError`
(the `QueryRejected` condition) raised with that reason, `none` means the
query passed every check. -/
def pyValidate (query : List Char) : Option String :=
  if query = [] ∨ pyStrip query = [] then
    some "Query must not be empty or whitespace-only."
  else
    pyValidateStripped (pyStrip query)

/-- The normalization step of `QueryExecutor.execute_safe_query`: strip
surrounding whitespace, then drop exactly one trailing `;` (and whitespace
before it). -/
def normalizeQuery (q : List Char) : List Char :=
  if (pyStrip q).getLast? = some ';' then rstrip (pyStrip q).dropLast else pyStrip q

/-- What `execute_safe_query` does with a candidate query: either a
`ValueError` with a reason (nothing reaches the database), or the normalized
statement is handed to `_execute_query`, i.e. executed on the connection. -/
inductive QueryOutcome where
  | rejected (reason : String)
  | executedOn (normalized : String)
deriving DecidableEq

/-- `QueryExecutor.execute_safe_query`, up to the database call: normalize,
validate, and report which string (if any) is executed. -/
def executeSafeQuery (q : String) : QueryOutcome :=
  match pyValidate (normalizeQuery q.data) with
  | some reason => QueryOutcome.rejected reason
  | none => QueryOutcome.executedOn (String.mk (normalizeQuery q.data))

/-- Claim-side reading (spec wording) of "beginning with case-insensitive
SELECT", as Python's `s.upper().startswith("SELECT")`. -/
def beginsWithSelectCI (s : String) : Bool :=
  "SELECT".data.isPrefixOf (pyUpper s.data)

/-- Claim-side reading of "the stripped query already ends in a
semicolon". -/
def stripEndsWithSemi (s : String) : Bool :=
  (pyStrip s.data).getLast? = some ';'

/-! ## Data model (`chatbot/models.py`) and the orchestrator (`chatbot/ChatBot.py`) -/

/-- The raw `arguments` string of a streamed tool call, together with what
`json.loads` makes of it: `malformed` raises `json.JSONDecodeError` (a
`ValueError` subclass), `obj raw query` parses to a dict whose `"query"` key
holds `query` (or is absent when `none`). Non-dict JSON values are out of
scope of this model. -/
inductive JsonArgs where
  | malformed (raw : String)
  | obj (raw : String) (query : Option String)
deriving DecidableEq

/-- The raw JSON text of the arguments, as accumulated from the stream. -/
def JsonArgs.raw : JsonArgs → String
  | .malformed r => r
  | .obj r _ => r

/-- One accumulated tool-call request (`tool_calls_acc[idx]` merged and put in
index order): its id, function name and arguments. -/
structure RawToolCall where
  id : String
  name : String
  arguments : JsonArgs
deriving DecidableEq

/-- `models.ToolCallRecord`. -/
structure ToolCallRecord where
  query : String
  response : String
deriving DecidableEq

/-- `models.Message`. `timestamp` models `datetime.now()`; the orchestrator
constructs every message at an opaque instant, modelled as `0`.
`rawToolCalls` is the `_raw_tool_calls` field. -/
structure Message where
  role : String
  content : Option String
  type : String
  toolCalls : Option (List ToolCallRecord)
  toolCallId : Option String
  timestamp : Nat
  rawToolCalls : Option (List RawToolCall)
deriving DecidableEq

/-- `Message.__post_init__`: derive the display type from the role when the
`type` argument was left empty. -/
def Message.defaultType (role type : String) : String :=
  if type = "" then
    if role = "user" then "request"
    else if role = "system" then "system"
    else if role = "tool" then "tool"
    else if role = "assistant" then "output"
    else type
  else type

/-- Constructing a `Message` as the dataclass plus `__post_init__` does. -/
def mkMessage (role : String) (content : Option String) (type : String)
    (toolCalls : Option (List ToolCallRecord)) (toolCallId : Option String)
    (rawToolCalls : Option (List RawToolCall)) : Message :=
  { role := role, content := content, type := Message.defaultType role type,
    toolCalls := toolCalls, toolCallId := toolCallId, timestamp := 0,
    rawToolCalls := rawToolCalls }

/-- `models.Conversation`: id, ordered messages, creation and last-activity
instants (opaque, modelled as naturals). -/
structure Conversation where
  id : String
  messages : List Message
  createdAt : Nat
  lastMessage : Nat
deriving DecidableEq

/-- `Conversation.add_message`. -/
def Conversation.addMessage (c : Conversation) (m : Message) : Conversation :=
  { c with messages := c.messages ++ [m], lastMessage := m.timestamp }

/-- Appending several messages in order. -/
def Conversation.addMessages (c : Conversation) (ms : List Message) : Conversation :=
  ms.foldl Conversation.addMessage c

/-- One entry of the `messages` list sent to the API
(`Message.to_api_dict()` output): the keys that can occur and their values.
A key whose value is `none` is absent (or present with value `None`, which
the token counter skips the same way). -/
structure ApiMsg where
  role : String
  content : Option String
  toolCallId : Option String
  toolCalls : Option (List RawToolCall)
deriving DecidableEq

/-- `Message.to_api_dict`. -/
def Message.toApiDict (m : Message) : ApiMsg :=
  if m.role = "tool" then
    { role := "tool", content := some (m.content.getD ""),
      toolCallId := m.toolCallId, toolCalls := none }
  else
    { role := m.role, content := m.content, toolCallId := none,
      toolCalls :=
        match m.rawToolCalls with
        | some l => if l = [] then none else some l
        | none => none }

/-- Rendering of one raw tool call as `json.dumps` lays it out, used only to
feed the token estimator. -/
def dumpsToolCall (tc : RawToolCall) : String :=
  "\x7b\"id\": \"" ++ tc.id ++ "\", \"type\": \"function\", \"function\": \x7b\"name\": \""
    ++ tc.name ++ "\", \"arguments\": \"" ++ tc.arguments.raw ++ "\"\x7d\x7d"

/-- `json.dumps` of a `tool_calls` list, used only to feed the token
estimator. -/
def dumpsToolCalls (l : List RawToolCall) : String :=
  "[" ++ String.intercalate ", " (l.map dumpsToolCall) ++ "]"

/-- `ChatBot._count_tokens_for_messages`: 3 tokens of overhead per message,
plus the estimator on every present value (the `role` string included; a
`tool_calls` list is measured through its `json.dumps`), plus 3 for the
primed reply. `enc s` stands for `len(encoding.encode(s))`. -/
def countTokensForMessages (enc : String → Nat) (messages : List ApiMsg) : Nat :=
  (messages.foldl (fun acc msg =>
    acc + 3 + enc msg.role
      + (match msg.content with | some s => enc s | none => 0)
      + (match msg.toolCallId with | some s => enc s | none => 0)
      + (match msg.toolCalls with | some l => enc (dumpsToolCalls l) | none => 0)) 0) + 3

/-- The turn-splitting loop of `ChatBot._build_api_messages`: group the
non-system messages so that each `user` message starts a new group and every
following non-`user` message joins the current group. -/
def splitTurnsAux (current : List Message) : List Message → List (List Message)
  | [] => if current = [] then [] else [current]
  | m :: ms =>
    if m.role = "user" then
      if current = [] then splitTurnsAux [m] ms
      else current :: splitTurnsAux [m] ms
    else splitTurnsAux (current ++ [m]) ms

/-- The turns of the tail of a conversation. -/
def splitTurns (rest : List Message) : List (List Message) := splitTurnsAux [] rest

/-- The system entry placed first in every API message list. -/
def sysApiMsg (systemContent : String) : ApiMsg :=
  { role := "system", content := some systemContent, toolCallId := none, toolCalls := none }

/-- The selection loop of `ChatBot._build_api_messages`: walk the turns from
most recent to oldest (`turnsRev` is the reversed turn list), keep extending
the candidate tail while the estimate fits, stop at the first turn that does
not fit. -/
def selectTail (enc : String → Nat) (sysMsg : ApiMsg) (maxTokens : Nat) :
    List (List Message) → List Message → List Message
  | [], tail => tail
  | turn :: rest, tail =>
    let candidate := turn ++ tail
    if countTokensForMessages enc (sysMsg :: candidate.map Message.toApiDict) ≤ maxTokens then
      selectTail enc sysMsg maxTokens rest candidate
    else tail

/-- `MAX_CONTEXT_TOKENS` of `ChatBot.py`. -/
def MAX_CONTEXT_TOKENS : Nat := 128000

/-- `MAX_REQUEST_TOKENS` of `ChatBot.py`. -/
def MAX_REQUEST_TOKENS : Nat := MAX_CONTEXT_TOKENS - 5000

/-- `ChatBot._build_api_messages`. -/
def buildApiMessages (enc : String → Nat) (conversation : Conversation)
    (systemContent : String) (maxTokens : Nat) : List ApiMsg :=
  let sysMsg := sysApiMsg systemContent
  let turns := splitTurns (conversation.messages.drop 1)
  let tail := selectTail enc sysMsg maxTokens turns.reverse []
  sysMsg :: tail.map Message.toApiDict

/-- `_build_api_messages` in the state-passing style used for every
conversation-touching operation of the embedding: the returned conversation
is the state after the call. The source reads `conversation.messages` and
never assigns into the conversation, so the state comes back untouched. -/
def buildApiMessagesSt (enc : String → Nat) (systemContent : String) (maxTokens : Nat)
    (conversation : Conversation) : List ApiMsg × Conversation :=
  (buildApiMessages enc conversation systemContent maxTokens, conversation)

/-- What the sqlite connection does with an executed statement: rows, or an
`sqlite3.Error` with the engine's message. -/
inductive DbResult where
  | rows (rows : List (List Int))
  | err (msg : String)

/-- The JSON payload `_execute_tool` serializes: `\x7b"error": ...\x7d` or
`\x7b"results": ...\x7d`. -/
inductive ToolPayload where
  | errorPayload (msg : String)
  | results (rows : List (List Int))
deriving DecidableEq

/-- Rendering of one result row for the serialized payload. -/
def serializeRow (r : List Int) : String :=
  "[" ++ String.intercalate ", " (r.map toString) ++ "]"

/-- The `json.dumps` output of a tool payload. -/
def serializePayload : ToolPayload → String
  | .errorPayload m => "\x7b\"error\": \"" ++ m ++ "\"\x7d"
  | .results rows =>
    "\x7b\"results\": [" ++ String.intercalate ", " (rows.map serializeRow) ++ "]\x7d"

/-- The `success = "error" not in json.loads(result)` test of the
orchestrator: the payload carries no `error` key exactly when it is a
results payload. -/
def payloadSuccess : ToolPayload → Bool
  | .errorPayload _ => false
  | .results _ => true

/-- Python exceptions that can cross function boundaries in the embedded
code paths. -/
inductive PyExn where
  | jsonDecodeError (raw : String)
  | keyError (key : String)
  | runtimeError (msg : String)
  | badRequestError (msg : String)
deriving DecidableEq

/-- The message of the `json.JSONDecodeError` str(), modelled from the raw
text that failed to parse. -/
def jsonDecodeMsg (raw : String) : String := "Invalid JSON: " ++ raw

/-- `ChatBot._execute_tool`: unknown tool names return an error payload
before the arguments are parsed; a `json.JSONDecodeError` or the gate's
`ValueError` or the executor's `RuntimeError` are caught and serialized; a
missing `"query"` key raises `KeyError`, which `except (ValueError,
RuntimeError)` does not catch. -/
def executeTool (db : String → DbResult) (functionName : String) (arguments : JsonArgs) :
    Except PyExn ToolPayload :=
  if functionName ≠ "execute_sql_query" then
    Except.ok (ToolPayload.errorPayload ("Unknown tool: " ++ functionName))
  else
    match arguments with
    | JsonArgs.malformed raw => Except.ok (ToolPayload.errorPayload (jsonDecodeMsg raw))
    | JsonArgs.obj _ none => Except.error (PyExn.keyError "query")
    | JsonArgs.obj _ (some q) =>
      match executeSafeQuery q with
      | QueryOutcome.rejected reason => Except.ok (ToolPayload.errorPayload reason)
      | QueryOutcome.executedOn nq =>
        match db nq with
        | DbResult.rows rows => Except.ok (ToolPayload.results rows)
        | DbResult.err e =>
          Except.ok (ToolPayload.errorPayload ("Query execution failed: " ++ e))

/-- The event dicts yielded by `_process_message_events`, as the tagged sum
the spec describes. -/
inductive Event where
  | status (status : String)
  | reasoningToken (token : String)
  | token (token : String)
  | reasoning (content : String)
  | toolCall (query : String)
  | toolResult (query : String) (success : Bool) (result : String)
  | done (conversationId : String) (response : String)
  | error (message : String)
deriving DecidableEq

/-- One provider response, with the stream already accumulated: the text
chunks in arrival order and the tool calls merged per index, in index order.
`contextLengthExceeded` is a `BadRequestError` whose text contains
`context_length_exceeded`; `badRequest` is any other `BadRequestError`. -/
inductive ProviderResp where
  | success (tokens : List String) (toolCalls : List RawToolCall)
  | contextLengthExceeded
  | badRequest (msg : String)
deriving DecidableEq

/-- Result of the `for raw_tc in raw_tool_calls` execution loop: the events
yielded, the `ToolCallRecord`s accumulated, the tool messages appended, and
whether any call failed — or the exception that escaped mid-loop, with the
events and messages produced before it. -/
inductive ToolLoopResult where
  | ok (events : List Event) (records : List ToolCallRecord) (toolMsgs : List Message)
      (anyFailed : Bool)
  | raised (events : List Event) (toolMsgs : List Message) (exn : PyExn)
deriving DecidableEq

/-- The `sql_query` extracted at the top of the loop body:
`json.loads(arguments).get("query", "")`. -/
def queryOf (tc : RawToolCall) : String :=
  match tc.arguments with
  | JsonArgs.malformed _ => ""
  | JsonArgs.obj _ q? => q?.getD ""

/-- The payload a call produces when `_execute_tool` returns (defaulted on
the paths where it raises instead). -/
def callPayloadD (db : String → DbResult) (tc : RawToolCall) : ToolPayload :=
  match executeTool db tc.name tc.arguments with
  | Except.ok p => p
  | Except.error _ => ToolPayload.errorPayload ""

/-- The two events one completed call yields, in order. -/
def callEvents (db : String → DbResult) (tc : RawToolCall) : List Event :=
  [Event.toolCall (queryOf tc),
   Event.toolResult (queryOf tc) (payloadSuccess (callPayloadD db tc))
     (serializePayload (callPayloadD db tc))]

/-- The `ToolCallRecord` one completed call appends. -/
def callRecord (db : String → DbResult) (tc : RawToolCall) : ToolCallRecord :=
  { query := queryOf tc, response := serializePayload (callPayloadD db tc) }

/-- The `tool`-role message one completed call appends: the serialized
result as content, the request's id as the association identifier. -/
def callToolMsg (db : String → DbResult) (tc : RawToolCall) : Message :=
  mkMessage "tool" (some (serializePayload (callPayloadD db tc))) "tool" none (some tc.id) none

/-- The tool-execution loop of `_process_message_events` (lines 254–287):
`json.loads` of the arguments runs unprotected at the top of each iteration;
then the `tool_call` event, `_execute_tool`, the `tool_result` event, the
record and the `tool` message. -/
def runToolCalls (db : String → DbResult) : List RawToolCall → ToolLoopResult
  | [] => ToolLoopResult.ok [] [] [] false
  | tc :: rest =>
    match tc.arguments with
    | JsonArgs.malformed raw => ToolLoopResult.raised [] [] (PyExn.jsonDecodeError raw)
    | JsonArgs.obj _ q? =>
      let sqlQuery := q?.getD ""
      match executeTool db tc.name tc.arguments with
      | Except.error exn => ToolLoopResult.raised [Event.toolCall sqlQuery] [] exn
      | Except.ok payload =>
        let evs := [Event.toolCall sqlQuery,
          Event.toolResult sqlQuery (payloadSuccess payload) (serializePayload payload)]
        let msg := mkMessage "tool" (some (serializePayload payload)) "tool" none
          (some tc.id) none
        match runToolCalls db rest with
        | ToolLoopResult.ok evs' recs msgs anyF =>
          ToolLoopResult.ok (evs ++ evs')
            ({ query := sqlQuery, response := serializePayload payload } :: recs)
            (msg :: msgs) (!payloadSuccess payload || anyF)
        | ToolLoopResult.raised evs' msgs exn =>
          ToolLoopResult.raised (evs ++ evs') (msg :: msgs) exn

/-- A tool call whose processing cannot raise out of the loop: its arguments
parse, and when the declared tool is named the `"query"` key is present. -/
def callWellFormed (tc : RawToolCall) : Bool :=
  match tc.arguments with
  | JsonArgs.malformed _ => false
  | JsonArgs.obj _ q? => tc.name ≠ "execute_sql_query" || q?.isSome

/-- The external collaborators a `ChatBot` instance depends on: the token
estimator, the database behind the gate, and the three prompt texts
(`get_system_prompt()` is timestamped; one turn's occurrences are modelled
as one fixed string). -/
structure BotEnv where
  enc : String → Nat
  db : String → DbResult
  systemPrompt : String
  reasoningPrompt : String
  interpretationPrompt : String

/-- `reasoning_system` of `_process_message_events`. -/
def reasoningSystem (env : BotEnv) : String :=
  env.systemPrompt ++ "\n\n" ++ env.reasoningPrompt

/-- `interpret_system` of `_process_message_events`. -/
def interpretSystem (env : BotEnv) : String :=
  env.systemPrompt ++ "\n\n" ++ env.interpretationPrompt

/-- The retry system message of line 294. -/
def RETRY_SYSTEM : String := "One or more tool calls failed. Please retry."

/-- `_CONTEXT_LENGTH_MSG` of `ChatBot.py`. -/
def CONTEXT_LENGTH_MSG : String :=
  "Conversation is too long. Please start a new conversation."

/-- How one processing call ends: the `done` event's data, an exception
propagating to the caller, or the provider script ran out (the real
generator would still be awaiting the provider). -/
inductive Outcome where
  | done (conversationId : String) (response : String)
  | raised (exn : PyExn)
  | noResponse
deriving DecidableEq

/-- What a phase of the generator produces: events in order, the message
list of every provider request made (in order), the conversation state, and
the outcome. -/
structure LoopResult where
  events : List Event
  requests : List (List ApiMsg)
  conversation : Conversation
  outcome : Outcome
deriving DecidableEq

/-- The `status: thinking` event opening a `while` iteration; the second
(emergency) attempt of the same iteration does not emit it again. -/
def statusPre (second : Bool) : List Event :=
  if second then [] else [Event.status "thinking"]

/-- The non-empty text chunks of a streamed response (`if delta.content:`
skips empty deltas). -/
def roundParts (toks : List String) : List String := toks.filter (fun t => t != "")

/-- `"".join(content_parts)`. -/
def roundFull (toks : List String) : String :=
  (roundParts toks).foldl (fun a b => a ++ b) ""

/-- `full_content = "".join(content_parts) or None`. -/
def roundFullContent (toks : List String) : Option String :=
  if roundFull toks = "" then none else some (roundFull toks)

/-- The assistant message appended when tool calls were accumulated; its
`tool_calls` records field is assigned only after the execution loop
finishes, so the mid-loop state carries `none`. -/
def assistantReasoningMsg (toks : List String) (tcs : List RawToolCall)
    (records : Option (List ToolCallRecord)) : Message :=
  mkMessage "assistant" (roundFullContent toks) "reasoning" records none (some tcs)

/-- `last_reasoning_content`: the stripped model text, or the placeholder. -/
def lastReasoningContent (toks : List String) : String :=
  let t := String.mk (pyStrip (roundFull toks).data)
  if t = "" then "(Planning step — no model text.)" else t

/-- The conversation after a completed tool round: the reasoning assistant
message (its records assigned after the loop) followed by one tool message
per call, in call order. -/
def roundConv (db : String → DbResult) (toks : List String) (tcs : List RawToolCall)
    (conv : Conversation) : Conversation :=
  (conv.addMessage (assistantReasoningMsg toks tcs (some (tcs.map (callRecord db))))).addMessages
    (tcs.map (callToolMsg db))

/-- The result finishing of the interpretation phase: token events, the
final `interpret` assistant message, the `done` event. -/
def interpretDone (conv : Conversation) (reqs : List (List ApiMsg))
    (toks : List String) : LoopResult :=
  let interpretContent := roundFull toks
  let conv' := conv.addMessage
    (mkMessage "assistant" (some interpretContent) "interpret" none none none)
  { events := [Event.status "thinking"] ++ (roundParts toks).map Event.token
      ++ [Event.done conv'.id interpretContent],
    requests := reqs, conversation := conv',
    outcome := Outcome.done conv'.id interpretContent }

/-- The interpretation phase (lines 301–353): one request with the
interpretation system prompt, with a single emergency rebuild at 12000
tokens on a context-length rejection; tool-call deltas of the stream are
ignored. `api` is the message list already built for the first attempt. -/
def interpretPhase (env : BotEnv) (conv : Conversation) (api : List ApiMsg) :
    List ProviderResp → LoopResult
  | [] =>
    { events := [Event.status "thinking"], requests := [api], conversation := conv,
      outcome := Outcome.noResponse }
  | ProviderResp.success toks _ :: _ => interpretDone conv [api] toks
  | ProviderResp.badRequest m :: _ =>
    { events := [Event.status "thinking"], requests := [api], conversation := conv,
      outcome := Outcome.raised (PyExn.badRequestError m) }
  | ProviderResp.contextLengthExceeded :: rest =>
    let api12 := buildApiMessages env.enc conv (interpretSystem env) 12000
    match rest with
    | [] =>
      { events := [Event.status "thinking"], requests := [api, api12], conversation := conv,
        outcome := Outcome.noResponse }
    | ProviderResp.success toks _ :: _ => interpretDone conv [api, api12] toks
    | ProviderResp.contextLengthExceeded :: _ =>
      { events := [Event.status "thinking"], requests := [api, api12], conversation := conv,
        outcome := Outcome.raised (PyExn.runtimeError CONTEXT_LENGTH_MSG) }
    | ProviderResp.badRequest m :: _ =>
      { events := [Event.status "thinking"], requests := [api, api12], conversation := conv,
        outcome := Outcome.raised (PyExn.badRequestError m) }

/-- The `while True` reasoning loop of `_process_message_events` (lines
153–299). `second` marks the emergency retry of the current iteration after
a context-length rejection (its request list was rebuilt at 12000 tokens
with the reasoning system prompt, and a second context-length rejection
raises `RuntimeError(_CONTEXT_LENGTH_MSG)`). Each provider call consumes one
script entry. -/
def runLoop (env : BotEnv) : Bool → Conversation → List ApiMsg → List ProviderResp → LoopResult
  | second, conv, api, [] =>
    { events := statusPre second, requests := [api], conversation := conv,
      outcome := Outcome.noResponse }
  | second, conv, api, ProviderResp.badRequest m :: _ =>
    { events := statusPre second, requests := [api], conversation := conv,
      outcome := Outcome.raised (PyExn.badRequestError m) }
  | second, conv, api, ProviderResp.contextLengthExceeded :: rest =>
    if second then
      { events := [], requests := [api], conversation := conv,
        outcome := Outcome.raised (PyExn.runtimeError CONTEXT_LENGTH_MSG) }
    else
      let res := runLoop env true conv
        (buildApiMessages env.enc conv (reasoningSystem env) 12000) rest
      { events := statusPre false ++ res.events, requests := api :: res.requests,
        conversation := res.conversation, outcome := res.outcome }
  | second, conv, api, ProviderResp.success toks tcs :: rest =>
    let pre := statusPre second ++ (roundParts toks).map Event.reasoningToken
    if tcs = [] then
      let conv' := conv.addMessage
        (mkMessage "assistant" (roundFullContent toks) "output" none none none)
      { events := pre ++ [Event.done conv'.id (roundFull toks)], requests := [api],
        conversation := conv', outcome := Outcome.done conv'.id (roundFull toks) }
    else
      match runToolCalls env.db tcs with
      | ToolLoopResult.raised tevs tmsgs exn =>
        { events := pre ++ [Event.reasoning (lastReasoningContent toks)] ++ tevs,
          requests := [api],
          conversation := (conv.addMessage (assistantReasoningMsg toks tcs none)).addMessages
            tmsgs,
          outcome := Outcome.raised exn }
      | ToolLoopResult.ok tevs records tmsgs anyFailed =>
        let conv2 := (conv.addMessage (assistantReasoningMsg toks tcs (some records))).addMessages
          tmsgs
        let res :=
          if anyFailed then
            runLoop env false conv2
              (buildApiMessages env.enc conv2 RETRY_SYSTEM MAX_REQUEST_TOKENS) rest
          else
            interpretPhase env conv2
              (buildApiMessages env.enc conv2 (interpretSystem env) MAX_REQUEST_TOKENS) rest
        { events := pre ++ [Event.reasoning (lastReasoningContent toks)] ++ tevs ++ res.events,
          requests := api :: res.requests, conversation := res.conversation,
          outcome := res.outcome }

/-- The continuation the loop takes after a round with at least one failed
tool call: another reasoning iteration whose request is built with the retry
system message. -/
def retryContinuation (env : BotEnv) (conv2 : Conversation) (rest : List ProviderResp) :
    LoopResult :=
  runLoop env false conv2 (buildApiMessages env.enc conv2 RETRY_SYSTEM MAX_REQUEST_TOKENS) rest

/-- The continuation the loop takes after a round whose tool calls all
succeeded: the interpretation phase. -/
def interpretContinuation (env : BotEnv) (conv2 : Conversation) (rest : List ProviderResp) :
    LoopResult :=
  interpretPhase env conv2
    (buildApiMessages env.enc conv2 (interpretSystem env) MAX_REQUEST_TOKENS) rest

/-- Assembling one completed tool round around its continuation `res`: the
round's own events first, the request of this round's provider call
prepended, and the continuation's conversation and outcome. -/
def roundResult (env : BotEnv) (second : Bool) (toks : List String)
    (tcs : List RawToolCall) (res : LoopResult) (api : List ApiMsg) : LoopResult :=
  { events := statusPre second ++ (roundParts toks).map Event.reasoningToken
      ++ [Event.reasoning (lastReasoningContent toks)]
      ++ (tcs.map (callEvents env.db)).flatten ++ res.events,
    requests := api :: res.requests,
    conversation := res.conversation,
    outcome := res.outcome }

/-- The conversation store `self._conversations`, as an association list. -/
abbrev Store := List (String × Conversation)

/-- `self._conversations.get(cid)`. -/
def storeLookup (store : Store) (cid : String) : Option Conversation :=
  (store.find? (fun p => p.1 = cid)).map (fun p => p.2)

/-- Writing back `conversation` under its key (the key is present whenever
the orchestrator writes, since it was resolved or created there). -/
def storeSet (store : Store) (cid : String) (c : Conversation) : Store :=
  store.map (fun p => if p.1 = cid then (cid, c) else p)

/-- The system message `create_conversation` seeds. -/
def systemMessage (sysPrompt : String) : Message :=
  mkMessage "system" (some sysPrompt) "system" none none none

/-- `ChatBot.create_conversation`, with `freshId` standing for
`uuid.uuid4().hex`. -/
def createConversation (freshId : String) (sysPrompt : String) : Conversation :=
  Conversation.addMessage
    { id := freshId, messages := [], createdAt := 0, lastMessage := 0 }
    (systemMessage sysPrompt)

/-- `ChatBot._refresh_system_prompt`. -/
def refreshSystemPrompt (sysPrompt : String) (c : Conversation) : Conversation :=
  match c.messages with
  | [] => c
  | m :: rest =>
    if m.role = "system" then
      { c with messages := { m with content := some sysPrompt } :: rest }
    else c

/-- Lines 134–137: resolve the conversation by id (`None` becomes `""`) or
create a fresh one, returning it and the updated store. -/
def resolveConversation (store : Store) (conversationId : Option String)
    (freshId : String) (sysPrompt : String) : Conversation × Store :=
  match storeLookup store (conversationId.getD "") with
  | some c => (c, store)
  | none =>
    let c := createConversation freshId sysPrompt
    (c, store ++ [(freshId, c)])

/-- The conversation at the point the reasoning loop starts: resolved or
created, its system prompt refreshed, the user message appended. -/
def startConversation (env : BotEnv) (freshId : String) (conversationId : Option String)
    (userMessage : String) (store : Store) : Conversation :=
  Conversation.addMessage
    (refreshSystemPrompt env.systemPrompt
      (resolveConversation store conversationId freshId env.systemPrompt).1)
    (mkMessage "user" (some userMessage) "request" none none none)

/-- The store at the point the reasoning loop starts. -/
def startStore (env : BotEnv) (freshId : String) (conversationId : Option String)
    (store : Store) : Store :=
  (resolveConversation store conversationId freshId env.systemPrompt).2

/-- What one processing call leaves behind: events, provider requests, the
outcome, and the store (the conversation object is shared with the store, so
the state it reached is visible there even when an exception escaped). -/
structure RunResult where
  events : List Event
  requests : List (List ApiMsg)
  outcome : Outcome
  store : Store
deriving DecidableEq

/-- `ChatBot._process_message_events` against a scripted provider. -/
def processMessageEvents (env : BotEnv) (freshId : String) (script : List ProviderResp)
    (userMessage : String) (conversationId : Option String) (store : Store) : RunResult :=
  let conv := startConversation env freshId conversationId userMessage store
  let api := buildApiMessages env.enc conv (reasoningSystem env) MAX_REQUEST_TOKENS
  let res := runLoop env false conv api script
  { events := res.events, requests := res.requests, outcome := res.outcome,
    store := storeSet (startStore env freshId conversationId store) res.conversation.id
      res.conversation }

/-- `ChatBot.process_message`: consume the events until `done`; exceptions
propagate; a generator that ends without `done` returns `("", "")`. -/
def processMessage (env : BotEnv) (freshId : String) (script : List ProviderResp)
    (userMessage : String) (conversationId : Option String) (store : Store) :
    Except PyExn (String × String) × Store :=
  let r := processMessageEvents env freshId script userMessage conversationId store
  (match r.outcome with
   | Outcome.done cid resp => Except.ok (cid, resp)
   | Outcome.raised e => Except.error e
   | Outcome.noResponse => Except.ok ("", ""),
   r.store)

/-! ## Invariants and claim-side predicates -/

/-- A well-formed turn: non-empty, starts with the `user` message, and no
further `user` message inside. -/
def turnOk (t : List Message) : Prop :=
  t ≠ [] ∧ (∀ m, t.head? = some m → m.role = "user") ∧ ∀ m ∈ t.tail, m.role ≠ "user"

/-- Whether a message list is empty or starts with a `user` message (the
shape of every reachable conversation tail). -/
def headRoleIsUser : List Message → Bool
  | [] => true
  | m :: _ => m.role = "user"

/-- The pending tool-call requests after walking `ms`: each assistant
message resets them to its `_raw_tool_calls` (empty when absent). -/
def lastRawAfter (l : List RawToolCall) : List Message → List RawToolCall
  | [] => l
  | m :: ms => lastRawAfter (if m.role = "assistant" then m.rawToolCalls.getD [] else l) ms

/-- The spec's tool-association invariant, checked along a message list:
every `tool`-role message's `tool_call_id` matches exactly one request of
the nearest preceding assistant message's `_raw_tool_calls`. -/
def toolInvAux (l : List RawToolCall) : List Message → Bool
  | [] => true
  | m :: ms =>
    if m.role = "assistant" then toolInvAux (m.rawToolCalls.getD []) ms
    else if m.role = "tool" then
      (l.countP (fun tc => m.toolCallId == some tc.id) == 1) && toolInvAux l ms
    else toolInvAux l ms

/-- The tool-association invariant of a whole conversation. -/
def toolInvariantB (msgs : List Message) : Bool := toolInvAux [] msgs

/-- A provider response whose tool-call ids are pairwise distinct (the
provider contract). -/
def respIdsNodup : ProviderResp → Bool
  | ProviderResp.success _ tcs => decide (tcs.map RawToolCall.id).Nodup
  | _ => true

/-- The `tool`-role messages a tool round appended, whether the loop
completed or raised mid-way. -/
def ToolLoopResult.toolMsgs : ToolLoopResult → List Message
  | ToolLoopResult.ok _ _ msgs _ => msgs
  | ToolLoopResult.raised _ msgs _ => msgs

/-- A concrete environment for instantiating the theorems: lengths as token
estimates, a database returning one row. -/
def sampleEnv : BotEnv :=
  { enc := String.length, db := fun _ => DbResult.rows [[10]], systemPrompt := "sys",
    reasoningPrompt := "reason", interpretationPrompt := "interpret" }

/-- A well-formed tool call whose query passes validation. -/
def goodCall : RawToolCall :=
  { id := "call_1", name := "execute_sql_query",
    arguments := JsonArgs.obj "\x7b\"query\": \"SELECT 1\"\x7d" (some "SELECT 1") }

/-- A well-formed tool call whose query the gate rejects. -/
def badQueryCall : RawToolCall :=
  { id := "call_2", name := "execute_sql_query",
    arguments := JsonArgs.obj "\x7b\"query\": \"DROP TABLE zones\"\x7d"
      (some "DROP TABLE zones") }

/-- A tool call naming an undeclared function, with an argument payload that
is not valid JSON. -/
def unknownToolCall : RawToolCall :=
  { id := "call_3", name := "some_other_tool", arguments := JsonArgs.malformed "not json" }

/-- A concrete two-message conversation. -/
def sampleConv : Conversation :=
  { id := "c0",
    messages := [systemMessage "sys",
      mkMessage "user" (some "how many?") "request" none none none],
    createdAt := 0, lastMessage := 0 }

/-- A well-formed tool call carrying the association id `call_dup`. -/
def dupCallA : RawToolCall :=
  { id := "call_dup", name := "execute_sql_query",
    arguments := JsonArgs.obj "\x7b\"query\": \"SELECT 1\"\x7d" (some "SELECT 1") }

/-- A second well-formed tool call carrying the same association id
`call_dup` as `dupCallA`. -/
def dupCallB : RawToolCall :=
  { id := "call_dup", name := "execute_sql_query",
    arguments := JsonArgs.obj "\x7b\"query\": \"SELECT 2\"\x7d" (some "SELECT 2") }

/-! ## Lemmas about stripping and normalization -/

theorem lstrip_head (l : List Char) : ∀ c, (lstrip l).head? = some c → pySpace c = false := by
  induction l with
  | nil => intro c h; simp [lstrip] at h
  | cons a t ih =>
    intro c h
    by_cases ha : pySpace a
    · rw [lstrip, List.dropWhile_cons, if_pos ha] at h
      exact ih c h
    · rw [lstrip, List.dropWhile_cons, if_neg ha] at h
      simp only [List.head?_cons, Option.some.injEq] at h
      rw [← h]
      exact Bool.eq_false_iff.mpr ha

theorem head_of_pref {l₁ l₂ : List Char} (h : l₁ <+: l₂) (hne : l₁ ≠ []) :
    l₁.head? = l₂.head? := by
  obtain ⟨t, rfl⟩ := h
  rw [List.head?_append]
  cases l₁ with
  | nil => exact absurd rfl hne
  | cons a l => rfl

theorem rstrip_pref (l : List Char) : rstrip l <+: l := by
  have h := List.dropWhile_suffix (l := l.reverse) pySpace
  have h2 := List.reverse_prefix.mpr h
  rwa [List.reverse_reverse] at h2

theorem headNotSpace_rstrip (l : List Char)
    (h : ∀ c, l.head? = some c → pySpace c = false) :
    ∀ c, (rstrip l).head? = some c → pySpace c = false := by
  intro c hc
  rcases eq_or_ne (rstrip l) [] with he | hne
  · rw [he] at hc; simp at hc
  · rw [head_of_pref (rstrip_pref l) hne] at hc
    exact h c hc

theorem lstrip_eq_self (l : List Char)
    (h : ∀ c, l.head? = some c → pySpace c = false) : lstrip l = l := by
  cases l with
  | nil => rfl
  | cons a t =>
    have ha := h a rfl
    rw [lstrip, List.dropWhile_cons, if_neg (by simp [ha])]

theorem rstrip_idem (l : List Char) : rstrip (rstrip l) = rstrip l := by
  unfold rstrip
  rw [List.reverse_reverse, List.dropWhile_idempotent]

theorem pyStrip_head (l : List Char) : ∀ c, (pyStrip l).head? = some c → pySpace c = false :=
  headNotSpace_rstrip (lstrip l) (lstrip_head l)

theorem rstrip_pyStrip (l : List Char) : rstrip (pyStrip l) = pyStrip l := by
  unfold pyStrip
  exact rstrip_idem (lstrip l)

theorem lstrip_pyStrip (l : List Char) : lstrip (pyStrip l) = pyStrip l :=
  lstrip_eq_self (pyStrip l) (pyStrip_head l)

theorem pyStrip_idem (l : List Char) : pyStrip (pyStrip l) = pyStrip l := by
  show rstrip (lstrip (pyStrip l)) = pyStrip l
  rw [lstrip_pyStrip, rstrip_pyStrip]

theorem pyStrip_normalizeQuery (q : List Char) :
    pyStrip (normalizeQuery q) = normalizeQuery q := by
  unfold normalizeQuery
  split
  · set x := (pyStrip q).dropLast with hxdef
    have hx : ∀ c, x.head? = some c → pySpace c = false := by
      intro c hc
      have hne : x ≠ [] := by intro h0; rw [h0] at hc; simp at hc
      rw [head_of_pref (List.dropLast_prefix (pyStrip q)) hne] at hc
      exact pyStrip_head q c hc
    show pyStrip (rstrip x) = rstrip x
    unfold pyStrip
    rw [lstrip_eq_self (rstrip x) (headNotSpace_rstrip x hx), rstrip_idem]
  · exact pyStrip_idem q

/-- Unpacking a successful validation: every check passed, stated against the
stripped query. -/
theorem pyValidate_eq_none (q : List Char) (h : pyValidate q = none) :
    q ≠ [] ∧ pyStrip q ≠ [] ∧
    "SELECT".data.isPrefixOf (pyUpper (pyStrip q)) = true ∧
    hasSub ";".data (pyStrip q) = false ∧
    findBlocked (pyStrip q) = none ∧
    hasSub "--".data (pyStrip q) = false ∧ hasSub "/*".data (pyStrip q) = false := by
  unfold pyValidate at h
  split at h
  · exact absurd h (by simp)
  · next hcond =>
    push_neg at hcond
    unfold pyValidateStripped at h
    split at h
    · exact absurd h (by simp)
    · next hsel =>
      split at h
      · exact absurd h (by simp)
      · next hsemi =>
        split at h
        · exact absurd h (by simp)
        · next hkw =>
          split at h
          · exact absurd h (by simp)
          · next hcom =>
            have hsel' : "SELECT".data.isPrefixOf (pyUpper (pyStrip q)) = true := by
              cases hb : "SELECT".data.isPrefixOf (pyUpper (pyStrip q)) with
              | false => exact absurd hb hsel
              | true => rfl
            have hsemi' : hasSub ";".data (pyStrip q) = false := by
              cases hb : hasSub ";".data (pyStrip q) with
              | true => exact absurd hb hsemi
              | false => rfl
            have hcom' : (hasSub "--".data (pyStrip q) || hasSub "/*".data (pyStrip q)) = false := by
              cases hb : (hasSub "--".data (pyStrip q) || hasSub "/*".data (pyStrip q)) with
              | true => exact absurd hb hcom
              | false => rfl
            have hcom2 := Bool.or_eq_false_iff.mp hcom'
            exact ⟨hcond.1, hcond.2, hsel', hsemi', hkw, hcom2.1, hcom2.2⟩

theorem executeSafeQuery_executedOn {q s : String}
    (h : executeSafeQuery q = QueryOutcome.executedOn s) :
    pyValidate (normalizeQuery q.data) = none ∧ s = String.mk (normalizeQuery q.data) := by
  unfold executeSafeQuery at h
  split at h
  · exact absurd h (by simp)
  · next hv =>
    simp only [QueryOutcome.executedOn.injEq] at h
    exact ⟨hv, h.symm⟩

/-! ## Lemmas about the blocked-keyword scan (for C2) -/

theorem asciiLower_of_nonword (c : Char) (h : isWordChar c = false) : asciiLower c = c := by
  unfold asciiLower
  rw [if_neg]
  intro hc
  unfold isWordChar at h
  simp only [Bool.or_eq_false_iff, decide_eq_false_iff_not] at h
  exact h.1.1.1 hc

theorem nonword_of_pySpace (c : Char) (h : pySpace c = true) : isWordChar c = false := by
  have h' : c = ' ' ∨ c = '\t' ∨ c = '\n' ∨ c = '\r' ∨ c = '\x0b' ∨ c = '\x0c' := by
    simpa [pySpace, or_assoc] using h
  rcases h' with rfl | rfl | rfl | rfl | rfl | rfl <;> decide

/-- Every blocked keyword is non-empty and consists of characters whose
lowercase forms are word characters. -/
def kwGood (kw : List Char) : Bool :=
  !kw.isEmpty && kw.all (fun k => isWordChar (asciiLower k))

theorem blocked_keywords_good : BLOCKED_KEYWORDS.all kwGood = true := by decide

theorem ciPrefixRem_nonword_head (k : Char) (ks : List Char)
    (hk : isWordChar (asciiLower k) = true) (c : Char) (hc : isWordChar c = false)
    (cs : List Char) : ciPrefixRem (k :: ks) (c :: cs) = none := by
  unfold ciPrefixRem
  rw [if_neg]
  intro he
  rw [he, asciiLower_of_nonword c hc] at hk
  rw [hk] at hc
  cases hc

theorem kwMatch_nonword_head (kw : List Char) (hkw : kwGood kw = true) (c : Char)
    (hc : isWordChar c = false) (cs : List Char) : kwMatch kw (c :: cs) = false := by
  unfold kwGood at hkw
  rw [Bool.and_eq_true] at hkw
  obtain ⟨h1, h2⟩ := hkw
  cases kw with
  | nil => simp at h1
  | cons k ks =>
    unfold kwMatch
    rw [ciPrefixRem_nonword_head k ks
      (List.all_eq_true.mp h2 k (by simp)) c hc cs]

theorem tryKeywords_nonword_head (p : Option Char) (c : Char)
    (hc : isWordChar c = false) (cs : List Char) : tryKeywords p (c :: cs) = none := by
  have hnone : BLOCKED_KEYWORDS.find? (fun kw => kwMatch kw (c :: cs)) = none :=
    List.find?_eq_none.mpr (fun kw hkw => by
      have hg := List.all_eq_true.mp blocked_keywords_good kw hkw
      simp [kwMatch_nonword_head kw hg c hc cs])
  unfold tryKeywords
  rw [hnone]
  split <;> rfl

theorem tryKeywords_congr (p1 p2 : Option Char) (h : boundaryOk p1 = boundaryOk p2)
    (l : List Char) : tryKeywords p1 l = tryKeywords p2 l := by
  unfold tryKeywords
  rw [h]

theorem scanBlocked_cons (p : Option Char) (c : Char) (cs : List Char) :
    scanBlocked p (c :: cs) =
      match tryKeywords p (c :: cs) with
      | some m => some m
      | none => scanBlocked (some c) cs := by
  simp [scanBlocked]

theorem scanBlocked_boundary_eq (p1 p2 : Option Char) (h : boundaryOk p1 = boundaryOk p2) :
    ∀ l, scanBlocked p1 l = scanBlocked p2 l := by
  intro l
  cases l with
  | nil => rfl
  | cons c cs =>
    rw [scanBlocked_cons p1 c cs, scanBlocked_cons p2 c cs, tryKeywords_congr p1 p2 h]

theorem scanBlocked_nonword_prefix (a : List Char) (ha : ∀ c ∈ a, isWordChar c = false) :
    ∀ p : Option Char, boundaryOk p = true →
      ∀ t, scanBlocked p (a ++ t) = scanBlocked none t := by
  induction a with
  | nil =>
    intro p hp t
    exact scanBlocked_boundary_eq p none (by rw [hp]; rfl) t
  | cons c a' ih =>
    intro p hp t
    have h0 : (c :: a') ++ t = c :: (a' ++ t) := rfl
    rw [h0, scanBlocked_cons p c (a' ++ t),
      tryKeywords_nonword_head p c (ha c (by simp)) (a' ++ t)]
    exact ih (fun x hx => ha x (by simp [hx])) (some c)
      (by simp [boundaryOk, ha c (by simp)]) t

theorem kwMatch_cons (k c : Char) (ks x : List Char) :
    kwMatch (k :: ks) (c :: x) =
      if asciiLower k = asciiLower c then kwMatch ks x else false := by
  by_cases he : asciiLower k = asciiLower c
  · rw [if_pos he]
    unfold kwMatch
    rw [show ciPrefixRem (k :: ks) (c :: x) = ciPrefixRem ks x by
      simp only [ciPrefixRem]; rw [if_pos he]]
  · rw [if_neg he]
    unfold kwMatch
    rw [show ciPrefixRem (k :: ks) (c :: x) = none by
      simp only [ciPrefixRem]; rw [if_neg he]]

theorem kwMatch_append (kw : List Char)
    (hkw : ∀ k ∈ kw, isWordChar (asciiLower k) = true)
    (b : List Char) (hb : ∀ c ∈ b, isWordChar c = false) :
    ∀ s, kwMatch kw (s ++ b) = kwMatch kw s := by
  induction kw with
  | nil =>
    intro s
    cases s with
    | nil =>
      cases b with
      | nil => rfl
      | cons c b' =>
        simp only [List.nil_append, kwMatch, ciPrefixRem]
        rw [hb c (by simp)]
        rfl
    | cons c s' =>
      simp only [List.cons_append, kwMatch, ciPrefixRem]
  | cons k ks ih =>
    intro s
    cases s with
    | nil =>
      cases b with
      | nil => rfl
      | cons c b' =>
        have h1 : kwMatch (k :: ks) (c :: b') = false := by
          unfold kwMatch
          rw [ciPrefixRem_nonword_head k ks (hkw k (by simp)) c (hb c (by simp)) b']
        have h2 : kwMatch (k :: ks) ([] : List Char) = false := by
          unfold kwMatch
          rw [show ciPrefixRem (k :: ks) [] = none from rfl]
        rw [List.nil_append, h1, h2]
    | cons c s' =>
      rw [List.cons_append, kwMatch_cons, kwMatch_cons]
      split
      · exact ih (fun x hx => hkw x (by simp [hx])) s'
      · rfl

theorem ciPrefixRem_some_length :
    ∀ (kw s r : List Char), ciPrefixRem kw s = some r → s.length = kw.length + r.length := by
  intro kw
  induction kw with
  | nil =>
    intro s r h
    unfold ciPrefixRem at h
    cases h
    simp
  | cons k ks ih =>
    intro s r h
    cases s with
    | nil => cases h
    | cons c cs =>
      unfold ciPrefixRem at h
      split at h
      · have h2 := ih cs r h
        simp [h2]
        omega
      · cases h

theorem kwMatch_le_length (kw s : List Char) (h : kwMatch kw s = true) :
    kw.length ≤ s.length := by
  unfold kwMatch at h
  cases hrem : ciPrefixRem kw s with
  | none => rw [hrem] at h; cases h
  | some r =>
    have h2 := ciPrefixRem_some_length kw s r hrem
    omega

theorem find?_congr_mem {α : Type} (l : List α) (p q : α → Bool)
    (h : ∀ x ∈ l, p x = q x) : l.find? p = l.find? q := by
  induction l with
  | nil => rfl
  | cons a t ih =>
    cases hq : q a with
    | true =>
      rw [List.find?_cons_of_pos _ (by rw [h a (by simp), hq]),
        List.find?_cons_of_pos _ hq]
    | false =>
      rw [List.find?_cons_of_neg _ (by rw [h a (by simp), hq]; simp),
        List.find?_cons_of_neg _ (by simp [hq]),
        ih (fun x hx => h x (by simp [hx]))]

theorem tryKeywords_append (p : Option Char) (b : List Char)
    (hb : ∀ c ∈ b, isWordChar c = false) (s : List Char) :
    tryKeywords p (s ++ b) = tryKeywords p s := by
  have hf : BLOCKED_KEYWORDS.find? (fun kw => kwMatch kw (s ++ b)) =
      BLOCKED_KEYWORDS.find? (fun kw => kwMatch kw s) := by
    apply find?_congr_mem
    intro kw hkw
    have hg := List.all_eq_true.mp blocked_keywords_good kw hkw
    unfold kwGood at hg
    rw [Bool.and_eq_true] at hg
    exact kwMatch_append kw (fun k hk => List.all_eq_true.mp hg.2 k hk) b hb s
  unfold tryKeywords
  rw [hf]
  cases hfind : BLOCKED_KEYWORDS.find? (fun kw => kwMatch kw s) with
  | none => rfl
  | some kw =>
    have hm : kwMatch kw s = true := by simpa using List.find?_some hfind
    have hlen : kw.length ≤ s.length := kwMatch_le_length kw s hm
    by_cases hbd : boundaryOk p = true
    · rw [if_pos hbd, if_pos hbd]
      show some (List.take kw.length (s ++ b)) = some (List.take kw.length s)
      rw [List.take_append_of_le_length hlen]
    · rw [if_neg hbd, if_neg hbd]

theorem scanBlocked_all_nonword (b : List Char) (hb : ∀ c ∈ b, isWordChar c = false) :
    ∀ p, scanBlocked p b = none := by
  induction b with
  | nil => intro p; rfl
  | cons c b' ih =>
    intro p
    rw [scanBlocked_cons p c b', tryKeywords_nonword_head p c (hb c (by simp)) b']
    exact ih (fun x hx => hb x (by simp [hx])) (some c)

theorem scanBlocked_suffix_nonword (b : List Char) (hb : ∀ c ∈ b, isWordChar c = false) :
    ∀ (s : List Char) (p : Option Char), scanBlocked p (s ++ b) = scanBlocked p s := by
  intro s
  induction s with
  | nil =>
    intro p
    exact scanBlocked_all_nonword b hb p
  | cons c s' ih =>
    intro p
    have htk : tryKeywords p (c :: (s' ++ b)) = tryKeywords p (c :: s') := by
      have h0 : c :: (s' ++ b) = (c :: s') ++ b := rfl
      rw [h0, tryKeywords_append p b hb (c :: s')]
    have h0 : (c :: s') ++ b = c :: (s' ++ b) := rfl
    rw [h0, scanBlocked_cons p c (s' ++ b), scanBlocked_cons p c s', htk]
    cases tryKeywords p (c :: s') with
    | some m => rfl
    | none => exact ih (some c)

theorem rstrip_decomp (y : List Char) :
    y = rstrip y ++ (y.reverse.takeWhile pySpace).reverse := by
  have h := List.takeWhile_append_dropWhile pySpace y.reverse
  have h2 : y.reverse.reverse =
      ((y.reverse.takeWhile pySpace) ++ (y.reverse.dropWhile pySpace)).reverse := by
    rw [h]
  rw [List.reverse_reverse, List.reverse_append] at h2
  exact h2

theorem eq_dropLast_append_of_getLast? {l : List Char} {c : Char}
    (h : l.getLast? = some c) : l = l.dropLast ++ [c] := by
  cases l with
  | nil => cases h
  | cons a t =>
    have hne : (a :: t) ≠ [] := by simp
    rw [List.getLast?_eq_getLast _ hne, Option.some.injEq] at h
    rw [← h]
    exact (List.dropLast_append_getLast hne).symm

theorem mem_takeWhile_nonword {l : List Char} {c : Char}
    (h : c ∈ l.takeWhile pySpace) : isWordChar c = false :=
  nonword_of_pySpace c (List.mem_takeWhile_imp h)

/-- The input is its normalized form surrounded by non-word characters: the
stripping and trailing-semicolon removal of `execute_safe_query` only
discard whitespace and one `;`. -/
theorem exists_nonword_decomp (q : List Char) :
    ∃ a b, q = a ++ normalizeQuery q ++ b ∧ (∀ c ∈ a, isWordChar c = false) ∧
      ∀ c ∈ b, isWordChar c = false := by
  have hq1 : q = q.takeWhile pySpace ++ lstrip q :=
    (List.takeWhile_append_dropWhile pySpace q).symm
  have hq2 : lstrip q = pyStrip q ++ ((lstrip q).reverse.takeWhile pySpace).reverse :=
    rstrip_decomp (lstrip q)
  have ha : ∀ c ∈ q.takeWhile pySpace, isWordChar c = false :=
    fun c hc => mem_takeWhile_nonword hc
  have hs1 : ∀ c ∈ ((lstrip q).reverse.takeWhile pySpace).reverse, isWordChar c = false :=
    fun c hc => mem_takeWhile_nonword (List.mem_reverse.mp hc)
  unfold normalizeQuery
  split
  · next hlast =>
    have hx : pyStrip q = (pyStrip q).dropLast ++ [';'] :=
      eq_dropLast_append_of_getLast? hlast
    have hx2 : (pyStrip q).dropLast =
        rstrip (pyStrip q).dropLast ++
          (((pyStrip q).dropLast).reverse.takeWhile pySpace).reverse :=
      rstrip_decomp ((pyStrip q).dropLast)
    refine ⟨q.takeWhile pySpace, (((pyStrip q).dropLast).reverse.takeWhile pySpace).reverse
      ++ [';'] ++ ((lstrip q).reverse.takeWhile pySpace).reverse, ?_, ha, ?_⟩
    · conv_lhs => rw [hq1, hq2, hx, hx2]
      simp [List.append_assoc]
    · intro c hc
      simp only [List.mem_append, List.mem_singleton] at hc
      rcases hc with (hc | rfl) | hc
      · exact mem_takeWhile_nonword (List.mem_reverse.mp hc)
      · decide
      · exact hs1 c hc
  · refine ⟨q.takeWhile pySpace, ((lstrip q).reverse.takeWhile pySpace).reverse, ?_, ha, hs1⟩
    conv_lhs => rw [hq1, hq2]
    simp [List.append_assoc]

/-- The blocked-keyword search gives the same result on the raw input and on
its normalized form. -/
theorem findBlocked_normalizeQuery (q : List Char) :
    findBlocked q = findBlocked (normalizeQuery q) := by
  obtain ⟨a, b, hq, ha, hb⟩ := exists_nonword_decomp q
  have h1 : scanBlocked none (a ++ (normalizeQuery q ++ b)) =
      scanBlocked none (normalizeQuery q ++ b) :=
    scanBlocked_nonword_prefix a ha none rfl (normalizeQuery q ++ b)
  have h2 : scanBlocked none (normalizeQuery q ++ b) =
      scanBlocked none (normalizeQuery q) :=
    scanBlocked_suffix_nonword b hb (normalizeQuery q) none
  unfold findBlocked
  conv_lhs => rw [hq, List.append_assoc]
  rw [h1, h2]

/-! ## C1 and C3 -/

/-- C1 counterexample: the input `" select 1"` does not begin with
case-insensitive `SELECT` (it begins with a space), yet `execute_safe_query`
accepts it and executes `"select 1"` on the connection: the claim quantifies
over the raw input while the code checks the prefix only after stripping. -/
theorem c1_counterexample :
    beginsWithSelectCI " select 1" = false ∧
    executeSafeQuery " select 1" = QueryOutcome.executedOn "select 1" := by
  constructor
  · decide
  · decide

/-- C1 (amended): for every input string whose normalized form (surrounding
whitespace stripped, one trailing `;` removed) does not begin with
case-insensitive `SELECT`, `execute_safe_query` raises the `QueryRejected`
`ValueError` with a reason string and nothing reaches the database
connection (`QueryOutcome.rejected` is produced before `_execute_query`). -/
theorem c1_nonselect_rejected (q : String)
    (h : beginsWithSelectCI (String.mk (normalizeQuery q.data)) = false) :
    ∃ r, executeSafeQuery q = QueryOutcome.rejected r := by
  unfold executeSafeQuery
  cases hv : pyValidate (normalizeQuery q.data) with
  | some r => exact ⟨r, rfl⟩
  | none =>
    exfalso
    have hx := pyValidate_eq_none _ hv
    rw [pyStrip_normalizeQuery] at hx
    unfold beginsWithSelectCI at h
    rw [show (String.mk (normalizeQuery q.data)).data = normalizeQuery q.data from rfl] at h
    rw [hx.2.2.1] at h
    simp at h

theorem c1_nonselect_rejected_witness :
    beginsWithSelectCI (String.mk (normalizeQuery "DROP TABLE zones".data)) = false ∧
    ∃ r, executeSafeQuery "DROP TABLE zones" = QueryOutcome.rejected r :=
  ⟨by decide, c1_nonselect_rejected "DROP TABLE zones" (by decide)⟩

theorem lstrip_append_semi (l : List Char) (h : lstrip l ≠ []) :
    lstrip (l ++ [';']) = lstrip l ++ [';'] := by
  unfold lstrip at *
  rw [List.dropWhile_append, if_neg (by simp [List.isEmpty_iff, h])]

theorem rstrip_append_semi (z : List Char) : rstrip (z ++ [';']) = z ++ [';'] := by
  unfold rstrip
  rw [List.reverse_concat, List.dropWhile_cons, if_neg (by simp [pySpace])]
  rw [List.reverse_cons, List.reverse_reverse]

theorem normalizeQuery_append_semi (q : List Char) (hls : lstrip q ≠ []) :
    normalizeQuery (q ++ [';']) = pyStrip q := by
  have h1 : pyStrip (q ++ [';']) = lstrip q ++ [';'] := by
    unfold pyStrip
    rw [lstrip_append_semi q hls, rstrip_append_semi]
  unfold normalizeQuery
  rw [h1, List.getLast?_concat, if_pos rfl, List.dropLast_concat]
  rfl

/-- C3 counterexample: `"SELECT 1;"` is an otherwise-valid query (it
succeeds, executing `"SELECT 1"`), but appending one further trailing `;`
changes the outcome to a rejection, since only one trailing semicolon is
stripped; and in `"SELECT 1; "` the `;` occurs before the end of the string
yet the query succeeds, since the trailing whitespace is stripped first. -/
theorem c3_counterexample :
    executeSafeQuery "SELECT 1;" = QueryOutcome.executedOn "SELECT 1" ∧
    executeSafeQuery ("SELECT 1;" ++ ";") =
      QueryOutcome.rejected
        "Query must not contain semicolons. Multiple statements are not allowed." ∧
    executeSafeQuery "SELECT 1; " = QueryOutcome.executedOn "SELECT 1" := by
  exact ⟨by decide, by decide, by decide⟩

/-- C3 (amended): `execute_safe_query` strips surrounding whitespace and
exactly one trailing `;` (with the whitespace before it) prior to
validation. Appending a single trailing semicolon to a succeeding query that
does not already end, after whitespace stripping, in a semicolon leaves the
outcome unchanged; and every query whose normalized form still contains a
`;` anywhere is rejected with a validation error and never executed. -/
theorem c3_trailing_semicolon :
    (∀ q s : String, executeSafeQuery q = QueryOutcome.executedOn s →
      stripEndsWithSemi q = false →
      executeSafeQuery (q ++ ";") = QueryOutcome.executedOn s) ∧
    (∀ q : String, hasSub ";".data (normalizeQuery q.data) = true →
      ∃ r, executeSafeQuery q = QueryOutcome.rejected r) := by
  constructor
  · intro q s hx hsemi
    obtain ⟨hv, hs⟩ := executeSafeQuery_executedOn hx
    have hsemi' : ¬(pyStrip q.data).getLast? = some ';' := by
      simpa [stripEndsWithSemi] using hsemi
    have hnq : normalizeQuery q.data = pyStrip q.data := by
      unfold normalizeQuery
      rw [if_neg hsemi']
    have hne : pyStrip q.data ≠ [] := by
      intro h0
      have h1 := (pyValidate_eq_none _ hv).1
      rw [hnq, h0] at h1
      exact h1 rfl
    have hls : lstrip q.data ≠ [] := by
      intro h0
      apply hne
      unfold pyStrip
      rw [h0]
      rfl
    have hdata : (q ++ ";").data = q.data ++ [';'] := by
      rw [String.data_append]
    unfold executeSafeQuery
    rw [hdata, normalizeQuery_append_semi q.data hls, ← hnq, hv, hs]
  · intro q hsemi
    unfold executeSafeQuery
    cases hv : pyValidate (normalizeQuery q.data) with
    | some r => exact ⟨r, rfl⟩
    | none =>
      exfalso
      have hx := pyValidate_eq_none _ hv
      rw [pyStrip_normalizeQuery] at hx
      rw [hx.2.2.2.1] at hsemi
      cases hsemi

/-! ## C2 -/

/-- C2: every query string in which `_BLOCKED_PATTERN` finds a blocked
keyword as a whole word (case-insensitive, word-boundary match, in the raw
input) is rejected by `execute_safe_query` with a validation error before
anything reaches the database, even when the string is otherwise a valid
SELECT; and a keyword occurring only inside a longer identifier does not
trigger rejection: `SELECT created_at FROM zones` is validated and executed
although it contains the letters `create`. -/
theorem c2_blocked_keywords (q : String) (h : (findBlocked q.data).isSome = true) :
    (∃ r, executeSafeQuery q = QueryOutcome.rejected r) ∧
    executeSafeQuery "SELECT created_at FROM zones" =
      QueryOutcome.executedOn "SELECT created_at FROM zones" := by
  refine ⟨?_, by decide⟩
  unfold executeSafeQuery
  cases hv : pyValidate (normalizeQuery q.data) with
  | some r => exact ⟨r, rfl⟩
  | none =>
    exfalso
    have hx := pyValidate_eq_none _ hv
    rw [pyStrip_normalizeQuery] at hx
    have hbl := hx.2.2.2.2.1
    rw [← findBlocked_normalizeQuery] at hbl
    rw [hbl] at h
    cases h

theorem c2_blocked_keywords_witness :
    (findBlocked "SELECT * FROM zones WHERE DROP".data).isSome = true ∧
    (∃ r, executeSafeQuery "SELECT * FROM zones WHERE DROP" = QueryOutcome.rejected r) ∧
    executeSafeQuery "SELECT created_at FROM zones" =
      QueryOutcome.executedOn "SELECT created_at FROM zones" :=
  ⟨by decide, c2_blocked_keywords "SELECT * FROM zones WHERE DROP" (by decide)⟩

/-! ## C8 -/

/-- C8: `_build_api_messages` does not mutate the Conversation: in the
state-passing embedding it returns its input state unchanged, so the message
list (length and order), every message's role, content, type, tool_calls,
tool_call_id and timestamp, and the conversation's id, created_at and
last_message are all equal after the call. -/
theorem c8_build_api_messages_pure (enc : String → Nat) (conversation : Conversation)
    (systemContent : String) (maxTokens : Nat) :
    (buildApiMessagesSt enc systemContent maxTokens conversation).2 = conversation ∧
    (buildApiMessagesSt enc systemContent maxTokens conversation).2.messages.length
      = conversation.messages.length ∧
    (∀ i : Nat, (buildApiMessagesSt enc systemContent maxTokens conversation).2.messages.get? i
      = conversation.messages.get? i) ∧
    (∀ (i : Nat) (m m' : Message),
      (buildApiMessagesSt enc systemContent maxTokens conversation).2.messages.get? i = some m →
      conversation.messages.get? i = some m' →
      m.role = m'.role ∧ m.content = m'.content ∧ m.type = m'.type ∧
      m.toolCalls = m'.toolCalls ∧ m.toolCallId = m'.toolCallId ∧
      m.timestamp = m'.timestamp) ∧
    (buildApiMessagesSt enc systemContent maxTokens conversation).2.id = conversation.id ∧
    (buildApiMessagesSt enc systemContent maxTokens conversation).2.createdAt
      = conversation.createdAt ∧
    (buildApiMessagesSt enc systemContent maxTokens conversation).2.lastMessage
      = conversation.lastMessage := by
  refine ⟨rfl, rfl, fun i => rfl, ?_, rfl, rfl, rfl⟩
  intro i m m' h1 h2
  have h3 : some m = some m' := h1.symm.trans h2
  rw [Option.some.injEq] at h3
  subst h3
  exact ⟨rfl, rfl, rfl, rfl, rfl, rfl⟩

/-! ## C6: the context budgeter -/

theorem splitTurnsAux_flatten (rest : List Message) :
    ∀ current, (splitTurnsAux current rest).flatten = current ++ rest := by
  induction rest with
  | nil =>
    intro current
    unfold splitTurnsAux
    split
    · next h => rw [h]; rfl
    · simp
  | cons m ms ih =>
    intro current
    unfold splitTurnsAux
    by_cases hu : m.role = "user"
    · rw [if_pos hu]
      by_cases hc : current = []
      · rw [if_pos hc, ih [m], hc]
        rfl
      · rw [if_neg hc]
        rw [List.flatten_cons, ih [m]]
        rfl
    · rw [if_neg hu, ih (current ++ [m])]
      simp

theorem splitTurnsAux_turnOk (rest : List Message) :
    ∀ current,
      (∀ m, current.head? = some m → m.role = "user") →
      (∀ m ∈ current.tail, m.role ≠ "user") →
      (current = [] → headRoleIsUser rest = true) →
      ∀ t ∈ splitTurnsAux current rest, turnOk t := by
  induction rest with
  | nil =>
    intro current h1 h2 _ t ht
    unfold splitTurnsAux at ht
    split at ht
    · simp at ht
    · next hc =>
      rw [List.mem_singleton] at ht
      subst ht
      exact ⟨hc, h1, h2⟩
  | cons m ms ih =>
    intro current h1 h2 hhead t ht
    unfold splitTurnsAux at ht
    by_cases hu : m.role = "user"
    · rw [if_pos hu] at ht
      by_cases hc : current = []
      · rw [if_pos hc] at ht
        refine ih [m] ?_ ?_ ?_ t ht
        · intro x hx
          rw [List.head?_cons, Option.some.injEq] at hx
          rw [← hx]
          exact hu
        · intro x hx
          simp at hx
        · intro h0
          simp at h0
      · rw [if_neg hc, List.mem_cons] at ht
        rcases ht with rfl | ht
        · exact ⟨hc, h1, h2⟩
        · refine ih [m] ?_ ?_ ?_ t ht
          · intro x hx
            rw [List.head?_cons, Option.some.injEq] at hx
            rw [← hx]
            exact hu
          · intro x hx
            simp at hx
          · intro h0
            simp at h0
    · rw [if_neg hu] at ht
      have hcne : current ≠ [] := by
        intro h0
        have hh := hhead h0
        unfold headRoleIsUser at hh
        simp at hh
        exact hu hh
      refine ih (current ++ [m]) ?_ ?_ ?_ t ht
      · intro x hx
        rw [List.head?_append] at hx
        cases hcd : current.head? with
        | none => exact absurd (List.head?_eq_none_iff.mp hcd) hcne
        | some y =>
          rw [hcd] at hx
          have hyx : y = x := by
            have : some y = some x := hx
            rwa [Option.some.injEq] at this
          rw [← hyx]
          exact h1 y hcd
      · intro x hx
        obtain ⟨c0, cur', rfl⟩ : ∃ c0 cur', current = c0 :: cur' := by
          cases current with
          | nil => exact absurd rfl hcne
          | cons c0 cur' => exact ⟨c0, cur', rfl⟩
        rw [show ((c0 :: cur') ++ [m]).tail = cur' ++ [m] from rfl, List.mem_append] at hx
        rcases hx with hx | hx
        · exact h2 x hx
        · rw [List.mem_singleton] at hx
          rw [hx]
          exact hu
      · intro h0
        simp at h0


theorem selectTail_cons (enc : String → Nat) (sysMsg : ApiMsg) (maxTokens : Nat)
    (turn : List Message) (rest : List (List Message)) (tail : List Message) :
    selectTail enc sysMsg maxTokens (turn :: rest) tail =
      if countTokensForMessages enc (sysMsg :: (turn ++ tail).map Message.toApiDict)
          ≤ maxTokens then
        selectTail enc sysMsg maxTokens rest (turn ++ tail)
      else tail := by
  simp [selectTail]

theorem selectTail_suffix (enc : String → Nat) (sysMsg : ApiMsg) (maxTokens : Nat)
    (turns : List (List Message)) :
    ∀ k, k ≤ turns.length →
      ∃ k', selectTail enc sysMsg maxTokens ((turns.take k).reverse)
          ((turns.drop k).flatten) = ((turns.drop k').flatten) := by
  intro k
  induction k with
  | zero =>
    intro _
    exact ⟨0, rfl⟩
  | succ n ihn =>
    intro hk
    have hlt : n < turns.length := hk
    have hdrop : turns.drop n = turns[n] :: turns.drop (n + 1) :=
      List.drop_eq_getElem_cons hlt
    have htake : (turns.take (n + 1)).reverse = turns[n] :: (turns.take n).reverse := by
      rw [List.take_succ, List.getElem?_eq_getElem hlt,
        show (some turns[n]).toList = [turns[n]] from rfl, List.reverse_concat]
    rw [htake, selectTail_cons]
    split
    · have hacc : turns[n] ++ (turns.drop (n + 1)).flatten = (turns.drop n).flatten := by
        rw [hdrop, List.flatten_cons]
      rw [hacc]
      exact ihn (Nat.le_of_lt hlt)
    · exact ⟨n + 1, rfl⟩

/-- C6: for every conversation whose tail starts with a user message and
every ceiling at least the system message's own token cost, the message list
`_build_api_messages` produces is the system message first, followed by a
contiguous suffix of whole turns (each turn a user message plus all of its
following assistant/tool messages up to the next user message, so no user
message is severed from its trailing messages); and the system message is
present even when no turn fits (the suffix may be empty). The turns
partition the conversation tail. -/
theorem c6_context_budgeter (enc : String → Nat) (conversation : Conversation)
    (systemContent : String) (maxTokens : Nat)
    (hwf : headRoleIsUser (conversation.messages.drop 1) = true)
    (hceil : countTokensForMessages enc [sysApiMsg systemContent] ≤ maxTokens) :
    ∃ k, buildApiMessages enc conversation systemContent maxTokens
        = sysApiMsg systemContent ::
          (((splitTurns (conversation.messages.drop 1)).drop k).flatten).map Message.toApiDict
      ∧ (∀ t ∈ splitTurns (conversation.messages.drop 1), turnOk t)
      ∧ (splitTurns (conversation.messages.drop 1)).flatten
        = conversation.messages.drop 1 := by
  obtain ⟨k', hsel⟩ := selectTail_suffix enc (sysApiMsg systemContent) maxTokens
    (splitTurns (conversation.messages.drop 1))
    (splitTurns (conversation.messages.drop 1)).length (le_refl _)
  rw [List.take_length, List.drop_length, List.flatten_nil] at hsel
  refine ⟨k', ?_, ?_, ?_⟩
  · show sysApiMsg systemContent ::
        (selectTail enc (sysApiMsg systemContent) maxTokens
          (splitTurns (conversation.messages.drop 1)).reverse []).map Message.toApiDict = _
    rw [hsel]
  · exact splitTurnsAux_turnOk (conversation.messages.drop 1) []
      (fun m hm => by cases hm) (fun m hm => by cases hm) (fun _ => hwf)
  · have h := splitTurnsAux_flatten (conversation.messages.drop 1) []
    rwa [List.nil_append] at h

theorem c6_context_budgeter_witness :
    ∃ k,
      buildApiMessages String.length
          (Conversation.mk "c1"
            [systemMessage "sys",
             mkMessage "user" (some "how many zones?") "request" none none none,
             mkMessage "assistant" (some "lots") "output" none none none] 0 0)
          "sys" 1000
        = sysApiMsg "sys" ::
          (((splitTurns ((Conversation.mk "c1"
            [systemMessage "sys",
             mkMessage "user" (some "how many zones?") "request" none none none,
             mkMessage "assistant" (some "lots") "output" none none none] 0 0).messages.drop
              1)).drop k).flatten).map Message.toApiDict
      ∧ (∀ t ∈ splitTurns ((Conversation.mk "c1"
            [systemMessage "sys",
             mkMessage "user" (some "how many zones?") "request" none none none,
             mkMessage "assistant" (some "lots") "output" none none none] 0 0).messages.drop
              1), turnOk t)
      ∧ (splitTurns ((Conversation.mk "c1"
            [systemMessage "sys",
             mkMessage "user" (some "how many zones?") "request" none none none,
             mkMessage "assistant" (some "lots") "output" none none none] 0 0).messages.drop
              1)).flatten
        = (Conversation.mk "c1"
            [systemMessage "sys",
             mkMessage "user" (some "how many zones?") "request" none none none,
             mkMessage "assistant" (some "lots") "output" none none none] 0 0).messages.drop
              1 :=
  c6_context_budgeter String.length _ "sys" 1000 (by decide) (by decide)

/-! ## Lemmas about the tool-execution loop -/

theorem executeTool_ok_of_wellFormed (db : String → DbResult) (tc : RawToolCall)
    (h : callWellFormed tc = true) :
    executeTool db tc.name tc.arguments = Except.ok (callPayloadD db tc) := by
  have hex : ∃ p, executeTool db tc.name tc.arguments = Except.ok p := by
    cases harg : tc.arguments with
    | malformed raw =>
      exfalso
      unfold callWellFormed at h
      rw [harg] at h
      exact absurd (show (false : Bool) = true from h) (by simp)
    | obj raw q? =>
      have hq' : (decide (tc.name ≠ "execute_sql_query") || q?.isSome) = true := by
        unfold callWellFormed at h
        rw [harg] at h
        exact h
      unfold executeTool
      by_cases hn : tc.name = "execute_sql_query"
      · rw [if_neg (fun hne => hne hn)]
        have hq : q?.isSome = true := by
          cases hq0 : q?.isSome with
          | true => rfl
          | false =>
            rw [hq0, Bool.or_false] at hq'
            exact absurd (of_decide_eq_true hq') (fun hne => hne hn)
        obtain ⟨q, rfl⟩ := Option.isSome_iff_exists.mp hq
        simp only [harg]
        cases hq1 : executeSafeQuery q with
        | rejected r => exact ⟨_, rfl⟩
        | executedOn nq =>
          show ∃ p, (match db nq with
            | DbResult.rows rows => Except.ok (ToolPayload.results rows)
            | DbResult.err e =>
              Except.ok (ToolPayload.errorPayload ("Query execution failed: " ++ e)))
            = Except.ok p
          cases db nq with
          | rows rows => exact ⟨_, rfl⟩
          | err e => exact ⟨_, rfl⟩
      · rw [if_pos hn]
        exact ⟨_, rfl⟩
  obtain ⟨p, hp⟩ := hex
  rw [hp]
  unfold callPayloadD
  rw [hp]

theorem runToolCalls_ok (db : String → DbResult) (calls : List RawToolCall)
    (h : calls.all callWellFormed = true) :
    runToolCalls db calls = ToolLoopResult.ok
      ((calls.map (callEvents db)).flatten)
      (calls.map (callRecord db))
      (calls.map (callToolMsg db))
      (calls.any (fun tc => !payloadSuccess (callPayloadD db tc))) := by
  induction calls with
  | nil => rfl
  | cons tc rest ih =>
    rw [List.all_cons, Bool.and_eq_true] at h
    obtain ⟨h1, h2⟩ := h
    obtain ⟨raw, q?, harg⟩ : ∃ raw q?, tc.arguments = JsonArgs.obj raw q? := by
      unfold callWellFormed at h1
      cases ha : tc.arguments with
      | malformed r =>
        rw [ha] at h1
        cases h1
      | obj raw q? => exact ⟨raw, q?, rfl⟩
    have hex := executeTool_ok_of_wellFormed db tc h1
    rw [harg] at hex
    simp only [runToolCalls, harg, hex, ih h2]
    simp [callEvents, callRecord, callToolMsg, queryOf, harg, List.any_cons]

theorem addMessage_messages (c : Conversation) (m : Message) :
    (c.addMessage m).messages = c.messages ++ [m] := rfl

theorem addMessages_messages (c : Conversation) (ms : List Message) :
    (c.addMessages ms).messages = c.messages ++ ms := by
  induction ms generalizing c with
  | nil => simp [Conversation.addMessages]
  | cons m ms ih =>
    rw [show c.addMessages (m :: ms) = (c.addMessage m).addMessages ms from rfl, ih,
      addMessage_messages, List.append_assoc]
    rfl

theorem runLoop_success_tools (env : BotEnv) (second : Bool) (conv : Conversation)
    (api : List ApiMsg) (toks : List String) (tcs : List RawToolCall)
    (rest : List ProviderResp)
    (hwf : tcs.all callWellFormed = true) (hne : tcs ≠ []) :
    runLoop env second conv api (ProviderResp.success toks tcs :: rest) =
      roundResult env second toks tcs
        (if tcs.any (fun tc => !payloadSuccess (callPayloadD env.db tc)) then
          retryContinuation env (roundConv env.db toks tcs conv) rest
        else interpretContinuation env (roundConv env.db toks tcs conv) rest) api := by
  simp only [runLoop]
  rw [if_neg hne, runToolCalls_ok env.db tcs hwf]
  cases hany : tcs.any (fun tc => !payloadSuccess (callPayloadD env.db tc)) with
  | true =>
    simp only [hany, if_pos]
    simp [roundResult, roundConv, retryContinuation]
  | false =>
    simp only [hany]
    simp [roundResult, roundConv, interpretContinuation]

theorem runLoop_requests_head (env : BotEnv) (second : Bool) (conv : Conversation)
    (api : List ApiMsg) (script : List ProviderResp) :
    (runLoop env second conv api script).requests.head? = some api := by
  cases script with
  | nil => rfl
  | cons r rest =>
    cases r with
    | badRequest m => rfl
    | contextLengthExceeded =>
      cases second with
      | true => simp [runLoop]
      | false => simp [runLoop]
    | success toks tcs =>
      by_cases htc : tcs = []
      · simp [runLoop, htc]
      · cases hrun : runToolCalls env.db tcs with
        | raised tevs tmsgs exn => simp [runLoop, htc, hrun]
        | ok tevs records tmsgs anyFailed =>
          cases anyFailed <;> simp [runLoop, htc, hrun]

/-! ## C5: the tool-execution round -/

/-- C5 (amended): in a reasoning round that accumulated tool calls whose
argument payloads all parse (with a `query` key whenever the declared tool
is named), the calls are executed sequentially in the order received and
none is skipped after an earlier failure — the events are the concatenation
of each call's `tool_call`/`tool_result` pair in order; each execution
appends exactly one `tool`-role message carrying the serialized result and
the association identifier; and after all calls complete the loop runs
another reasoning iteration built with the retry system message exactly
when at least one call failed, otherwise it enters the interpretation
phase. -/
theorem c5_tool_round (env : BotEnv) (second : Bool) (conv : Conversation)
    (api : List ApiMsg) (toks : List String) (tcs : List RawToolCall)
    (rest : List ProviderResp)
    (hwf : tcs.all callWellFormed = true) (hne : tcs ≠ []) :
    runToolCalls env.db tcs = ToolLoopResult.ok ((tcs.map (callEvents env.db)).flatten)
      (tcs.map (callRecord env.db)) (tcs.map (callToolMsg env.db))
      (tcs.any (fun tc => !payloadSuccess (callPayloadD env.db tc))) ∧
    (∀ tc ∈ tcs, callEvents env.db tc =
        [Event.toolCall (queryOf tc),
         Event.toolResult (queryOf tc) (payloadSuccess (callPayloadD env.db tc))
           (serializePayload (callPayloadD env.db tc))] ∧
      (callToolMsg env.db tc).role = "tool" ∧
      (callToolMsg env.db tc).toolCallId = some tc.id ∧
      (callToolMsg env.db tc).content = some (serializePayload (callPayloadD env.db tc))) ∧
    (roundConv env.db toks tcs conv).messages = conv.messages
      ++ [assistantReasoningMsg toks tcs (some (tcs.map (callRecord env.db)))]
      ++ tcs.map (callToolMsg env.db) ∧
    runLoop env second conv api (ProviderResp.success toks tcs :: rest) =
      roundResult env second toks tcs
        (if tcs.any (fun tc => !payloadSuccess (callPayloadD env.db tc)) then
          retryContinuation env (roundConv env.db toks tcs conv) rest
        else interpretContinuation env (roundConv env.db toks tcs conv) rest) api := by
  refine ⟨runToolCalls_ok env.db tcs hwf, ?_, ?_, runLoop_success_tools env second conv api
    toks tcs rest hwf hne⟩
  · intro tc _
    exact ⟨rfl, rfl, rfl, rfl⟩
  · unfold roundConv
    rw [addMessages_messages, addMessage_messages, List.append_assoc]

theorem c5_tool_round_witness :
    runToolCalls sampleEnv.db [goodCall, badQueryCall] =
      ToolLoopResult.ok
        (([goodCall, badQueryCall].map (callEvents sampleEnv.db)).flatten)
        ([goodCall, badQueryCall].map (callRecord sampleEnv.db))
        ([goodCall, badQueryCall].map (callToolMsg sampleEnv.db))
        ([goodCall, badQueryCall].any
          (fun tc => !payloadSuccess (callPayloadD sampleEnv.db tc))) :=
  (c5_tool_round sampleEnv false sampleConv [] ["planning"] [goodCall, badQueryCall] []
    (by decide) (by decide)).1

/-- C5 counterexample: with a first call whose argument payload is not valid
JSON, the unprotected `json.loads` raises out of the loop: the second call
is never executed (no events, no tool message for it) and no retry
transition happens, so the round does not execute every accumulated call. -/
theorem c5_counterexample :
    runToolCalls (fun _ => DbResult.rows [])
      [{ id := "1", name := "execute_sql_query", arguments := JsonArgs.malformed "oops" },
       { id := "2", name := "execute_sql_query",
         arguments := JsonArgs.obj "\x7b\"query\": \"SELECT 1\"\x7d" (some "SELECT 1") }]
      = ToolLoopResult.raised [] [] (PyExn.jsonDecodeError "oops") := by decide

/-! ## C4: tool failures are folded back, not raised -/

/-- C4 (amended): when every accumulated tool call's argument payload parses
as JSON (with a `query` key whenever the declared tool is named), no
tool-call failure — validation rejection, database-engine failure, or a
request naming an undeclared function — is raised to the caller: the loop
completes with every failure serialized as a JSON error payload placed in
the `tool`-role message's content and reported through a `tool_result` event
with `success = false`; and when at least one call failed, the turn is not
terminated: its outcome is that of another reasoning round whose request is
built with the retry system message. -/
theorem c4_failures_folded (env : BotEnv) (second : Bool) (conv : Conversation)
    (api : List ApiMsg) (toks : List String) (tcs : List RawToolCall)
    (rest : List ProviderResp)
    (hwf : tcs.all callWellFormed = true)
    (hfail : tcs.any (fun tc => !payloadSuccess (callPayloadD env.db tc)) = true) :
    (∃ evs recs msgs, runToolCalls env.db tcs = ToolLoopResult.ok evs recs msgs true) ∧
    (∀ tc ∈ tcs, payloadSuccess (callPayloadD env.db tc) = false →
      (∃ emsg, callPayloadD env.db tc = ToolPayload.errorPayload emsg) ∧
      (callToolMsg env.db tc).role = "tool" ∧
      (callToolMsg env.db tc).content = some (serializePayload (callPayloadD env.db tc)) ∧
      Event.toolResult (queryOf tc) false (serializePayload (callPayloadD env.db tc))
        ∈ callEvents env.db tc) ∧
    (runLoop env second conv api (ProviderResp.success toks tcs :: rest)).outcome
      = (retryContinuation env (roundConv env.db toks tcs conv) rest).outcome ∧
    (runLoop env second conv api (ProviderResp.success toks tcs :: rest)).requests.get? 1
      = some (buildApiMessages env.enc (roundConv env.db toks tcs conv) RETRY_SYSTEM
          MAX_REQUEST_TOKENS) := by
  have hne : tcs ≠ [] := by
    intro h0
    rw [h0] at hfail
    cases hfail
  have hloop := runLoop_success_tools env second conv api toks tcs rest hwf hne
  rw [hfail] at hloop
  refine ⟨?_, ?_, ?_, ?_⟩
  · refine ⟨(tcs.map (callEvents env.db)).flatten, tcs.map (callRecord env.db),
      tcs.map (callToolMsg env.db), ?_⟩
    rw [runToolCalls_ok env.db tcs hwf, hfail]
  · intro tc _ hp
    refine ⟨?_, rfl, rfl, ?_⟩
    · cases hpd : callPayloadD env.db tc with
      | errorPayload emsg => exact ⟨emsg, rfl⟩
      | results rows =>
        rw [hpd] at hp
        cases hp
    · rw [show callEvents env.db tc =
          [Event.toolCall (queryOf tc),
           Event.toolResult (queryOf tc) (payloadSuccess (callPayloadD env.db tc))
             (serializePayload (callPayloadD env.db tc))] from rfl, hp]
      simp
  · rw [hloop]
    simp [roundResult]
  · rw [hloop, if_pos rfl]
    simp only [roundResult]
    unfold retryContinuation
    have hh := runLoop_requests_head env false (roundConv env.db toks tcs conv)
      (buildApiMessages env.enc (roundConv env.db toks tcs conv) RETRY_SYSTEM
        MAX_REQUEST_TOKENS) rest
    cases hreq : (runLoop env false (roundConv env.db toks tcs conv)
        (buildApiMessages env.enc (roundConv env.db toks tcs conv) RETRY_SYSTEM
          MAX_REQUEST_TOKENS) rest).requests with
    | nil =>
      rw [hreq] at hh
      cases hh
    | cons x t =>
      rw [hreq] at hh
      rw [List.head?_cons, Option.some.injEq] at hh
      simp [hh]

theorem c4_failures_folded_witness :
    (∃ evs recs msgs,
      runToolCalls sampleEnv.db [badQueryCall] = ToolLoopResult.ok evs recs msgs true) ∧
    (∀ tc ∈ [badQueryCall], payloadSuccess (callPayloadD sampleEnv.db tc) = false →
      (∃ emsg, callPayloadD sampleEnv.db tc = ToolPayload.errorPayload emsg) ∧
      (callToolMsg sampleEnv.db tc).role = "tool" ∧
      (callToolMsg sampleEnv.db tc).content
        = some (serializePayload (callPayloadD sampleEnv.db tc)) ∧
      Event.toolResult (queryOf tc) false (serializePayload (callPayloadD sampleEnv.db tc))
        ∈ callEvents sampleEnv.db tc) ∧
    (runLoop sampleEnv false sampleConv []
        (ProviderResp.success [] [badQueryCall] :: [])).outcome
      = (retryContinuation sampleEnv (roundConv sampleEnv.db [] [badQueryCall] sampleConv)
          []).outcome ∧
    (runLoop sampleEnv false sampleConv []
        (ProviderResp.success [] [badQueryCall] :: [])).requests.get? 1
      = some (buildApiMessages sampleEnv.enc
          (roundConv sampleEnv.db [] [badQueryCall] sampleConv) RETRY_SYSTEM
          MAX_REQUEST_TOKENS) :=
  c4_failures_folded sampleEnv false sampleConv [] [] [badQueryCall] []
    (by decide) (by decide)

/-- C4 counterexample: a tool-call request naming a function other than
`execute_sql_query` whose argument payload is not valid JSON is raised to
the external caller — the unprotected `json.loads` at the top of the
execution loop throws before `_execute_tool`'s unknown-tool branch can
serialize anything — so the claim fails as stated for the unknown-tool
failure kind. -/
theorem c4_counterexample :
    (processMessageEvents sampleEnv "fresh"
        [ProviderResp.success [] [unknownToolCall]] "hello" none []).outcome
      = Outcome.raised (PyExn.jsonDecodeError "not json") := by decide

/-! ## Store and identity lemmas -/

theorem storeLookup_cons_ne (p : String × Conversation) (t : Store) (k : String)
    (h : ¬p.1 = k) : storeLookup (p :: t) k = storeLookup t k := by
  unfold storeLookup
  rw [List.find?_cons_of_neg _ (by simp [h])]

theorem storeSet_cons (p : String × Conversation) (t : Store) (k : String)
    (c : Conversation) :
    storeSet (p :: t) k c = (if p.1 = k then (k, c) else p) :: storeSet t k c := by
  unfold storeSet
  rw [List.map_cons]

theorem storeLookup_storeSet_self (s : Store) (k : String) (c : Conversation)
    (h : storeLookup s k ≠ none) : storeLookup (storeSet s k c) k = some c := by
  induction s with
  | nil => exact absurd rfl h
  | cons p t ih =>
    rw [storeSet_cons]
    by_cases hp : p.1 = k
    · rw [if_pos hp]
      unfold storeLookup
      rw [List.find?_cons_of_pos _ (by simp)]
      rfl
    · rw [if_neg hp, storeLookup_cons_ne p (storeSet t k c) k hp]
      apply ih
      rw [storeLookup_cons_ne p t k hp] at h
      exact h

theorem storeSet_length (s : Store) (k : String) (c : Conversation) :
    (storeSet s k c).length = s.length := by
  unfold storeSet
  rw [List.length_map]

theorem storeLookup_append_ne_none (s : Store) (k : String) (c : Conversation) :
    storeLookup (s ++ [(k, c)]) k ≠ none := by
  induction s with
  | nil =>
    unfold storeLookup
    rw [List.nil_append, List.find?_cons_of_pos _ (by simp)]
    simp
  | cons p t ih =>
    by_cases hp : p.1 = k
    · unfold storeLookup
      rw [List.cons_append, List.find?_cons_of_pos _ (by simp [hp])]
      simp
    · rw [List.cons_append, storeLookup_cons_ne p _ k hp]
      exact ih

theorem addMessage_id (c : Conversation) (m : Message) : (c.addMessage m).id = c.id := rfl

theorem addMessages_id (c : Conversation) (ms : List Message) :
    (c.addMessages ms).id = c.id := by
  induction ms generalizing c with
  | nil => rfl
  | cons m ms ih => exact ih (c.addMessage m)

theorem refreshSystemPrompt_id (sys : String) (c : Conversation) :
    (refreshSystemPrompt sys c).id = c.id := by
  unfold refreshSystemPrompt
  cases hm : c.messages with
  | nil => rfl
  | cons m rest => by_cases h : m.role = "system" <;> simp [h]

theorem startConversation_id (env : BotEnv) (freshId : String)
    (conversationId : Option String) (userMessage : String) (store : Store) :
    (startConversation env freshId conversationId userMessage store).id
      = (resolveConversation store conversationId freshId env.systemPrompt).1.id := by
  unfold startConversation
  rw [addMessage_id, refreshSystemPrompt_id]

theorem createConversation_id (freshId sys : String) :
    (createConversation freshId sys).id = freshId := rfl

theorem startStore_lookup (env : BotEnv) (freshId : String)
    (conversationId : Option String) (store : Store)
    (hwfStore : store.all (fun p => p.2.id == p.1) = true) :
    storeLookup (startStore env freshId conversationId store)
      (resolveConversation store conversationId freshId env.systemPrompt).1.id ≠ none := by
  unfold startStore resolveConversation
  cases hl : storeLookup store (conversationId.getD "") with
  | some c =>
    have hcid : c.id = conversationId.getD "" := by
      unfold storeLookup at hl
      cases hf : store.find? (fun p => p.1 = conversationId.getD "") with
      | none =>
        rw [hf] at hl
        cases hl
      | some p =>
        rw [hf] at hl
        have hp2 : p.2 = c := by simpa using hl
        have hpk : p.1 = conversationId.getD "" := by simpa using List.find?_some hf
        have hpm : p ∈ store := List.mem_of_find?_eq_some hf
        have hid := List.all_eq_true.mp hwfStore p hpm
        rw [← hp2, ← hpk]
        exact eq_of_beq hid
    simp only [hl]
    rw [hcid, hl]
    simp
  | none =>
    simp only [hl]
    rw [createConversation_id]
    exact storeLookup_append_ne_none store freshId (createConversation freshId env.systemPrompt)

/-! ## C7: the emergency context rebuild -/

theorem runLoop_double_ctx (env : BotEnv) (conv : Conversation) (api : List ApiMsg)
    (rest : List ProviderResp) :
    runLoop env false conv api
        (ProviderResp.contextLengthExceeded :: ProviderResp.contextLengthExceeded :: rest)
      = { events := [Event.status "thinking"],
          requests := [api, buildApiMessages env.enc conv (reasoningSystem env) 12000],
          conversation := conv,
          outcome := Outcome.raised (PyExn.runtimeError CONTEXT_LENGTH_MSG) } := by
  simp [runLoop, statusPre]

theorem processMessageEvents_eq (env : BotEnv) (freshId : String)
    (script : List ProviderResp) (userMessage : String) (conversationId : Option String)
    (store : Store) :
    processMessageEvents env freshId script userMessage conversationId store =
      { events := (runLoop env false
            (startConversation env freshId conversationId userMessage store)
            (buildApiMessages env.enc
              (startConversation env freshId conversationId userMessage store)
              (reasoningSystem env) MAX_REQUEST_TOKENS) script).events,
        requests := (runLoop env false
            (startConversation env freshId conversationId userMessage store)
            (buildApiMessages env.enc
              (startConversation env freshId conversationId userMessage store)
              (reasoningSystem env) MAX_REQUEST_TOKENS) script).requests,
        outcome := (runLoop env false
            (startConversation env freshId conversationId userMessage store)
            (buildApiMessages env.enc
              (startConversation env freshId conversationId userMessage store)
              (reasoningSystem env) MAX_REQUEST_TOKENS) script).outcome,
        store := storeSet (startStore env freshId conversationId store)
          (runLoop env false (startConversation env freshId conversationId userMessage store)
            (buildApiMessages env.enc
              (startConversation env freshId conversationId userMessage store)
              (reasoningSystem env) MAX_REQUEST_TOKENS) script).conversation.id
          (runLoop env false (startConversation env freshId conversationId userMessage store)
            (buildApiMessages env.enc
              (startConversation env freshId conversationId userMessage store)
              (reasoningSystem env) MAX_REQUEST_TOKENS) script).conversation } := rfl

/-- C7: when the provider rejects the reasoning request for context length,
the orchestrator rebuilds the message list once under the emergency 12000
token ceiling and retries; when that retry is also rejected for context
length, the turn fails by raising `RuntimeError` with the user-facing
message `Conversation is too long. Please start a new conversation.` (not
the raw provider error), and the conversation is left intact in the store
under its id, with the history it had reached (system message, prior turns,
and the new user message) still inspectable. -/
theorem c7_context_length (env : BotEnv) (freshId : String) (rest : List ProviderResp)
    (userMessage : String) (conversationId : Option String) (store : Store)
    (hwfStore : store.all (fun p => p.2.id == p.1) = true) :
    (processMessageEvents env freshId
        (ProviderResp.contextLengthExceeded :: ProviderResp.contextLengthExceeded :: rest)
        userMessage conversationId store).outcome
      = Outcome.raised (PyExn.runtimeError CONTEXT_LENGTH_MSG) ∧
    CONTEXT_LENGTH_MSG = "Conversation is too long. Please start a new conversation." ∧
    (processMessageEvents env freshId
        (ProviderResp.contextLengthExceeded :: ProviderResp.contextLengthExceeded :: rest)
        userMessage conversationId store).requests
      = [buildApiMessages env.enc
           (startConversation env freshId conversationId userMessage store)
           (reasoningSystem env) MAX_REQUEST_TOKENS,
         buildApiMessages env.enc
           (startConversation env freshId conversationId userMessage store)
           (reasoningSystem env) 12000] ∧
    storeLookup (processMessageEvents env freshId
        (ProviderResp.contextLengthExceeded :: ProviderResp.contextLengthExceeded :: rest)
        userMessage conversationId store).store
        (startConversation env freshId conversationId userMessage store).id
      = some (startConversation env freshId conversationId userMessage store) := by
  rw [processMessageEvents_eq, runLoop_double_ctx]
  refine ⟨rfl, rfl, rfl, ?_⟩
  apply storeLookup_storeSet_self
  rw [startConversation_id]
  exact startStore_lookup env freshId conversationId store hwfStore

theorem c7_context_length_witness :
    (processMessageEvents sampleEnv "fresh"
        [ProviderResp.contextLengthExceeded, ProviderResp.contextLengthExceeded]
        "hello" none []).outcome
      = Outcome.raised (PyExn.runtimeError CONTEXT_LENGTH_MSG) ∧
    CONTEXT_LENGTH_MSG = "Conversation is too long. Please start a new conversation." ∧
    (processMessageEvents sampleEnv "fresh"
        [ProviderResp.contextLengthExceeded, ProviderResp.contextLengthExceeded]
        "hello" none []).requests
      = [buildApiMessages sampleEnv.enc
           (startConversation sampleEnv "fresh" none "hello" [])
           (reasoningSystem sampleEnv) MAX_REQUEST_TOKENS,
         buildApiMessages sampleEnv.enc
           (startConversation sampleEnv "fresh" none "hello" [])
           (reasoningSystem sampleEnv) 12000] ∧
    storeLookup (processMessageEvents sampleEnv "fresh"
        [ProviderResp.contextLengthExceeded, ProviderResp.contextLengthExceeded]
        "hello" none []).store
        (startConversation sampleEnv "fresh" none "hello" []).id
      = some (startConversation sampleEnv "fresh" none "hello" []) :=
  c7_context_length sampleEnv "fresh" [] "hello" none [] (by decide)

/-! ## Conversation-shape preservation through the loop -/

theorem addMessage_ne_nil (c : Conversation) (m : Message) :
    (c.addMessage m).messages ≠ [] := by
  rw [addMessage_messages]
  simp

theorem addMessage_head? (c : Conversation) (m : Message) (h : c.messages ≠ []) :
    (c.addMessage m).messages.head? = c.messages.head? := by
  rw [addMessage_messages, List.head?_append]
  cases hm : c.messages with
  | nil => exact absurd hm h
  | cons a t => rfl

theorem addMessages_head? (c : Conversation) (ms : List Message) (h : c.messages ≠ []) :
    (c.addMessages ms).messages.head? = c.messages.head? := by
  rw [addMessages_messages, List.head?_append]
  cases hm : c.messages with
  | nil => exact absurd hm h
  | cons a t => rfl

theorem addMessages_ne_nil (c : Conversation) (ms : List Message) (h : c.messages ≠ []) :
    (c.addMessages ms).messages ≠ [] := by
  rw [addMessages_messages]
  simp [h]

theorem interpretPhase_id (env : BotEnv) (conv : Conversation) (api : List ApiMsg)
    (script : List ProviderResp) :
    (interpretPhase env conv api script).conversation.id = conv.id := by
  cases script with
  | nil => rfl
  | cons r rest =>
    cases r with
    | success toks tcs => simp [interpretPhase, interpretDone, Conversation.addMessage]
    | badRequest m => rfl
    | contextLengthExceeded =>
      cases rest with
      | nil => rfl
      | cons r2 rest2 =>
        cases r2 with
        | success toks tcs => simp [interpretPhase, interpretDone, Conversation.addMessage]
        | badRequest m => rfl
        | contextLengthExceeded => rfl

theorem interpretPhase_head? (env : BotEnv) (conv : Conversation) (api : List ApiMsg)
    (script : List ProviderResp) (h : conv.messages ≠ []) :
    (interpretPhase env conv api script).conversation.messages.head?
      = conv.messages.head? := by
  cases script with
  | nil => rfl
  | cons r rest =>
    cases r with
    | success toks tcs =>
      show (interpretDone conv [api] toks).conversation.messages.head? = _
      simp only [interpretDone]
      exact addMessage_head? conv _ h
    | badRequest m => rfl
    | contextLengthExceeded =>
      cases rest with
      | nil => rfl
      | cons r2 rest2 =>
        cases r2 with
        | success toks tcs =>
          show (interpretDone conv [api,
            buildApiMessages env.enc conv (interpretSystem env) 12000]
              toks).conversation.messages.head? = _
          simp only [interpretDone]
          exact addMessage_head? conv _ h
        | badRequest m => rfl
        | contextLengthExceeded => rfl

theorem interpretPhase_ne_nil (env : BotEnv) (conv : Conversation) (api : List ApiMsg)
    (script : List ProviderResp) (h : conv.messages ≠ []) :
    (interpretPhase env conv api script).conversation.messages ≠ [] := by
  cases script with
  | nil => exact h
  | cons r rest =>
    cases r with
    | success toks tcs =>
      show (interpretDone conv [api] toks).conversation.messages ≠ []
      simp only [interpretDone]
      exact addMessage_ne_nil conv _
    | badRequest m => exact h
    | contextLengthExceeded =>
      cases rest with
      | nil => exact h
      | cons r2 rest2 =>
        cases r2 with
        | success toks tcs =>
          show (interpretDone conv [api,
            buildApiMessages env.enc conv (interpretSystem env) 12000]
              toks).conversation.messages ≠ []
          simp only [interpretDone]
          exact addMessage_ne_nil conv _
        | badRequest m => exact h
        | contextLengthExceeded => exact h

theorem interpretPhase_done_id (env : BotEnv) (conv : Conversation) (api : List ApiMsg)
    (script : List ProviderResp) :
    ∀ i r, (interpretPhase env conv api script).outcome = Outcome.done i r →
      i = conv.id := by
  intro i r h
  cases script with
  | nil => cases h
  | cons r0 rest =>
    cases r0 with
    | success toks tcs =>
      simp only [interpretPhase, interpretDone, Outcome.done.injEq] at h
      rw [← h.1]
      rfl
    | badRequest m => cases h
    | contextLengthExceeded =>
      cases rest with
      | nil => cases h
      | cons r2 rest2 =>
        cases r2 with
        | success toks tcs =>
          simp only [interpretPhase, interpretDone, Outcome.done.injEq] at h
          rw [← h.1]
          rfl
        | badRequest m => cases h
        | contextLengthExceeded => cases h

theorem runLoop_id (env : BotEnv) (script : List ProviderResp) :
    ∀ (second : Bool) (conv : Conversation) (api : List ApiMsg),
      (runLoop env second conv api script).conversation.id = conv.id := by
  induction script with
  | nil => intro second conv api; rfl
  | cons r rest ih =>
    intro second conv api
    cases r with
    | badRequest m => rfl
    | contextLengthExceeded =>
      cases second with
      | true => rfl
      | false =>
        show (runLoop env true conv
          (buildApiMessages env.enc conv (reasoningSystem env) 12000)
            rest).conversation.id = conv.id
        exact ih true conv _
    | success toks tcs =>
      by_cases htc : tcs = []
      · simp [runLoop, htc, Conversation.addMessage]
      · cases hrun : runToolCalls env.db tcs with
        | raised tevs tmsgs exn =>
          simp only [runLoop, hrun]
          rw [if_neg htc]
          rw [addMessages_id, addMessage_id]
        | ok tevs records tmsgs anyFailed =>
          simp only [runLoop, hrun]
          rw [if_neg htc]
          cases anyFailed with
          | true =>
            rw [show (true : Bool) = true from rfl, if_pos rfl]
            rw [ih false _ _, addMessages_id, addMessage_id]
          | false =>
            rw [if_neg (by simp)]
            rw [interpretPhase_id, addMessages_id, addMessage_id]

theorem runLoop_head? (env : BotEnv) (script : List ProviderResp) :
    ∀ (second : Bool) (conv : Conversation) (api : List ApiMsg),
      conv.messages ≠ [] →
      (runLoop env second conv api script).conversation.messages.head?
        = conv.messages.head? := by
  induction script with
  | nil => intro second conv api _; rfl
  | cons r rest ih =>
    intro second conv api h
    cases r with
    | badRequest m => rfl
    | contextLengthExceeded =>
      cases second with
      | true => rfl
      | false =>
        show (runLoop env true conv
          (buildApiMessages env.enc conv (reasoningSystem env) 12000)
            rest).conversation.messages.head? = conv.messages.head?
        exact ih true conv _ h
    | success toks tcs =>
      by_cases htc : tcs = []
      · simp only [runLoop, htc, if_pos rfl]
        exact addMessage_head? conv _ h
      · cases hrun : runToolCalls env.db tcs with
        | raised tevs tmsgs exn =>
          simp only [runLoop, hrun]
          rw [if_neg htc]
          rw [addMessages_head? _ _ (addMessage_ne_nil conv _), addMessage_head? conv _ h]
        | ok tevs records tmsgs anyFailed =>
          simp only [runLoop, hrun]
          rw [if_neg htc]
          have hne2 : ((conv.addMessage
              (assistantReasoningMsg toks tcs (some records))).addMessages
                tmsgs).messages ≠ [] :=
            addMessages_ne_nil _ tmsgs (addMessage_ne_nil conv _)
          cases anyFailed with
          | true =>
            rw [if_pos rfl]
            rw [ih false _ _ hne2,
              addMessages_head? _ _ (addMessage_ne_nil conv _), addMessage_head? conv _ h]
          | false =>
            rw [if_neg (by simp)]
            rw [interpretPhase_head? _ _ _ _ hne2,
              addMessages_head? _ _ (addMessage_ne_nil conv _), addMessage_head? conv _ h]

theorem runLoop_done_id (env : BotEnv) (script : List ProviderResp) :
    ∀ (second : Bool) (conv : Conversation) (api : List ApiMsg) (i r : String),
      (runLoop env second conv api script).outcome = Outcome.done i r → i = conv.id := by
  induction script with
  | nil =>
    intro second conv api i r h
    cases h
  | cons r0 rest ih =>
    intro second conv api i r h
    cases r0 with
    | badRequest m => cases h
    | contextLengthExceeded =>
      cases second with
      | true => cases h
      | false =>
        exact ih true conv (buildApiMessages env.enc conv (reasoningSystem env) 12000) i r h
    | success toks tcs =>
      by_cases htc : tcs = []
      · subst htc
        simp [runLoop, Conversation.addMessage, Outcome.done.injEq] at h
        exact h.1.symm
      · cases hrun : runToolCalls env.db tcs with
        | raised tevs tmsgs exn =>
          simp only [runLoop, hrun] at h
          rw [if_neg htc] at h
          cases h
        | ok tevs records tmsgs anyFailed =>
          simp only [runLoop, hrun] at h
          rw [if_neg htc] at h
          cases anyFailed with
          | true =>
            rw [if_pos rfl] at h
            rw [ih false _ _ i r h, addMessages_id, addMessage_id]
          | false =>
            rw [if_neg (by simp)] at h
            rw [interpretPhase_done_id _ _ _ _ i r h, addMessages_id, addMessage_id]

/-! ## C10: conversation resolution -/

theorem storeLookup_wf_id (store : Store) (k : String) (c : Conversation)
    (hwfStore : store.all (fun p => p.2.id == p.1) = true)
    (h : storeLookup store k = some c) : c.id = k := by
  unfold storeLookup at h
  cases hf : store.find? (fun p => p.1 = k) with
  | none =>
    rw [hf] at h
    cases h
  | some p =>
    rw [hf] at h
    have hp2 : p.2 = c := by simpa using h
    have hpk : p.1 = k := by simpa using List.find?_some hf
    have hpm : p ∈ store := List.mem_of_find?_eq_some hf
    have hid := List.all_eq_true.mp hwfStore p hpm
    rw [← hp2, ← hpk]
    exact eq_of_beq hid

theorem refreshSystemPrompt_ne_nil (sys : String) (c : Conversation)
    (h : c.messages ≠ []) : (refreshSystemPrompt sys c).messages ≠ [] := by
  unfold refreshSystemPrompt
  cases hm : c.messages with
  | nil => exact absurd hm h
  | cons m rest => by_cases hr : m.role = "system" <;> simp [hr, hm]

theorem refreshSystemPrompt_head_role (sys : String) (c : Conversation)
    (h : ∀ m, c.messages.head? = some m → m.role = "system") :
    ∀ m, (refreshSystemPrompt sys c).messages.head? = some m → m.role = "system" := by
  unfold refreshSystemPrompt
  cases hm : c.messages with
  | nil =>
    intro m hm2
    rw [hm] at hm2
    simp at hm2
  | cons m0 rest =>
    intro m hm2
    by_cases hr : m0.role = "system"
    · have hm3 : (if m0.role = "system" then
          ({ id := c.id,
             messages := ({ role := m0.role, content := some sys, type := m0.type,
                            toolCalls := m0.toolCalls, toolCallId := m0.toolCallId,
                            timestamp := m0.timestamp,
                            rawToolCalls := m0.rawToolCalls } : Message) :: rest,
             createdAt := c.createdAt, lastMessage := c.lastMessage } : Conversation)
          else c).messages.head? = some m := hm2
      rw [if_pos hr] at hm3
      simp only [List.head?_cons, Option.some.injEq] at hm3
      rw [← hm3]
      exact hr
    · have hm3 : (if m0.role = "system" then
          ({ id := c.id,
             messages := ({ role := m0.role, content := some sys, type := m0.type,
                            toolCalls := m0.toolCalls, toolCallId := m0.toolCallId,
                            timestamp := m0.timestamp,
                            rawToolCalls := m0.rawToolCalls } : Message) :: rest,
             createdAt := c.createdAt, lastMessage := c.lastMessage } : Conversation)
          else c).messages.head? = some m := hm2
      rw [if_neg hr] at hm3
      exact h m hm3

theorem startConversation_head_role (env : BotEnv) (freshId : String)
    (conversationId : Option String) (userMessage : String) (store : Store)
    (hl : storeLookup store (conversationId.getD "") = none) :
    (∀ m, (startConversation env freshId conversationId userMessage store).messages.head?
      = some m → m.role = "system") ∧
    (startConversation env freshId conversationId userMessage store).messages ≠ [] := by
  have hres : resolveConversation store conversationId freshId env.systemPrompt
      = (createConversation freshId env.systemPrompt,
         store ++ [(freshId, createConversation freshId env.systemPrompt)]) := by
    unfold resolveConversation
    rw [hl]
  have hcreated : ∀ m, (createConversation freshId env.systemPrompt).messages.head?
      = some m → m.role = "system" := by
    intro m hm
    rw [show (createConversation freshId env.systemPrompt).messages
      = [systemMessage env.systemPrompt] from rfl] at hm
    rw [List.head?_cons, Option.some.injEq] at hm
    rw [← hm]
    rfl
  have hcne : (createConversation freshId env.systemPrompt).messages ≠ [] := by
    rw [show (createConversation freshId env.systemPrompt).messages
      = [systemMessage env.systemPrompt] from rfl]
    simp
  constructor
  · intro m hm
    unfold startConversation at hm
    rw [hres] at hm
    rw [addMessage_head? _ _
      (refreshSystemPrompt_ne_nil env.systemPrompt _ hcne)] at hm
    exact refreshSystemPrompt_head_role env.systemPrompt _ hcreated m hm
  · unfold startConversation
    rw [hres]
    exact addMessage_ne_nil _ _

theorem startConversation_ne_nil (env : BotEnv) (freshId : String)
    (conversationId : Option String) (userMessage : String) (store : Store) :
    (startConversation env freshId conversationId userMessage store).messages ≠ [] :=
  addMessage_ne_nil _ _

/-- C10: for every call of the orchestrator's message processing, if the
supplied conversation id is `None` or absent from the store, a new
conversation is created whose first message is a `system`-role message, the
store grows by exactly one entry under the fresh id, and any `done` event
carries the fresh conversation's identifier; if the supplied id is present,
no new conversation is created (the store size is unchanged) and any `done`
event carries the supplied identifier. (`freshId` stands for the fresh
`uuid4().hex`, assumed not already a key; keys are assumed to match their
conversation's id and to be non-empty, as the orchestrator maintains.) -/
theorem c10_conversation_resolution (env : BotEnv) (freshId : String)
    (script : List ProviderResp) (userMessage : String)
    (conversationId : Option String) (store : Store)
    (hfresh : storeLookup store freshId = none)
    (hwfStore : store.all (fun p => p.2.id == p.1) = true)
    (hnoEmpty : storeLookup store "" = none) :
    ((conversationId = none ∨ storeLookup store (conversationId.getD "") = none) →
      (processMessageEvents env freshId script userMessage conversationId store).store.length
          = store.length + 1
      ∧ (∃ c, storeLookup
            (processMessageEvents env freshId script userMessage conversationId store).store
            freshId = some c
          ∧ ∀ m, c.messages.head? = some m → m.role = "system")
      ∧ ∀ i r, (processMessageEvents env freshId script userMessage conversationId
            store).outcome = Outcome.done i r → i = freshId)
    ∧ ∀ cid c0, conversationId = some cid → storeLookup store cid = some c0 →
      (processMessageEvents env freshId script userMessage conversationId store).store.length
          = store.length
      ∧ ∀ i r, (processMessageEvents env freshId script userMessage conversationId
            store).outcome = Outcome.done i r → i = cid := by
  constructor
  · intro hcase
    have hl : storeLookup store (conversationId.getD "") = none := by
      rcases hcase with rfl | h
      · exact hnoEmpty
      · exact h
    have hres : resolveConversation store conversationId freshId env.systemPrompt
        = (createConversation freshId env.systemPrompt,
           store ++ [(freshId, createConversation freshId env.systemPrompt)]) := by
      unfold resolveConversation
      rw [hl]
    have hid : (startConversation env freshId conversationId userMessage store).id
        = freshId := by
      rw [startConversation_id, hres, createConversation_id]
    have hstart : startStore env freshId conversationId store
        = store ++ [(freshId, createConversation freshId env.systemPrompt)] := by
      unfold startStore
      rw [hres]
    rw [processMessageEvents_eq]
    refine ⟨?_, ?_, ?_⟩
    · show (storeSet (startStore env freshId conversationId store) _ _).length
        = store.length + 1
      rw [storeSet_length, hstart, List.length_append]
      rfl
    · refine ⟨(runLoop env false
        (startConversation env freshId conversationId userMessage store)
        (buildApiMessages env.enc
          (startConversation env freshId conversationId userMessage store)
          (reasoningSystem env) MAX_REQUEST_TOKENS) script).conversation, ?_, ?_⟩
      · show storeLookup (storeSet (startStore env freshId conversationId store) _ _)
          freshId = _
        rw [show (runLoop env false
            (startConversation env freshId conversationId userMessage store)
            (buildApiMessages env.enc
              (startConversation env freshId conversationId userMessage store)
              (reasoningSystem env) MAX_REQUEST_TOKENS) script).conversation.id
          = freshId from (runLoop_id env script false _ _).trans hid]
        apply storeLookup_storeSet_self
        rw [hstart]
        exact storeLookup_append_ne_none store freshId _
      · intro m hm
        rw [runLoop_head? env script false _ _
          (startConversation_ne_nil env freshId conversationId userMessage store)] at hm
        exact (startConversation_head_role env freshId conversationId userMessage
          store hl).1 m hm
    · intro i r h
      have := runLoop_done_id env script false _ _ i r h
      rw [this, hid]
  · intro cid c0 hcid hc0
    have hl : storeLookup store (conversationId.getD "") = some c0 := by
      rw [hcid]
      exact hc0
    have hres : resolveConversation store conversationId freshId env.systemPrompt
        = (c0, store) := by
      unfold resolveConversation
      rw [hl]
    have hstart : startStore env freshId conversationId store = store := by
      unfold startStore
      rw [hres]
    have hid : (startConversation env freshId conversationId userMessage store).id
        = cid := by
      rw [startConversation_id, hres]
      have := storeLookup_wf_id store (conversationId.getD "") c0 hwfStore hl
      rw [this, hcid]
      rfl
    rw [processMessageEvents_eq]
    constructor
    · show (storeSet (startStore env freshId conversationId store) _ _).length
        = store.length
      rw [storeSet_length, hstart]
    · intro i r h
      have := runLoop_done_id env script false _ _ i r h
      rw [this, hid]

theorem c10_conversation_resolution_witness :
    ((none = (none : Option String)
        ∨ storeLookup ([] : Store) ((none : Option String).getD "") = none) →
      (processMessageEvents sampleEnv "fresh" [] "hello" none []).store.length
          = ([] : Store).length + 1
      ∧ (∃ c, storeLookup (processMessageEvents sampleEnv "fresh" [] "hello" none []).store
            "fresh" = some c
          ∧ ∀ m, c.messages.head? = some m → m.role = "system")
      ∧ ∀ i r, (processMessageEvents sampleEnv "fresh" [] "hello" none []).outcome
          = Outcome.done i r → i = "fresh")
    ∧ ∀ cid c0, (none : Option String) = some cid → storeLookup ([] : Store) cid = some c0 →
      (processMessageEvents sampleEnv "fresh" [] "hello" none []).store.length
          = ([] : Store).length
      ∧ ∀ i r, (processMessageEvents sampleEnv "fresh" [] "hello" none []).outcome
          = Outcome.done i r → i = cid :=
  c10_conversation_resolution sampleEnv "fresh" [] "hello" none [] (by decide) (by decide)
    (by decide)

/-! ## C9: the tool-association invariant -/

theorem toolInvAux_append (l : List RawToolCall) (xs ys : List Message) :
    toolInvAux l (xs ++ ys)
      = (toolInvAux l xs && toolInvAux (lastRawAfter l xs) ys) := by
  induction xs generalizing l with
  | nil => simp [toolInvAux, lastRawAfter]
  | cons m ms ih =>
    by_cases h1 : m.role = "assistant"
    · simp [toolInvAux, lastRawAfter, h1, ih]
    · by_cases h2 : m.role = "tool"
      · simp [toolInvAux, lastRawAfter, h1, h2, ih, Bool.and_assoc]
      · simp [toolInvAux, lastRawAfter, h1, h2, ih]

theorem toolInvAux_cons_other (l : List RawToolCall) (m : Message) (ms : List Message)
    (h1 : ¬ (m.role = "assistant")) (h2 : ¬ (m.role = "tool")) :
    toolInvAux l (m :: ms) = toolInvAux l ms := by
  simp [toolInvAux, h1, h2]

theorem countP_id_eq_one (tcs : List RawToolCall)
    (hnd : (tcs.map RawToolCall.id).Nodup) (tc : RawToolCall) (htc : tc ∈ tcs) :
    tcs.countP (fun tc2 => some tc.id == some tc2.id) = 1 := by
  have hstep : tcs.countP (fun tc2 => some tc.id == some tc2.id)
      = tcs.countP (fun tc2 => tc2.id == tc.id) := by
    apply List.countP_congr
    intro a _
    constructor
    · intro hb
      have he : (some tc.id : Option String) = some a.id := eq_of_beq hb
      have he2 : a.id = tc.id := by
        injection he with he3
        exact he3.symm
      exact beq_iff_eq.mpr he2
    · intro hb
      have he : a.id = tc.id := eq_of_beq hb
      exact beq_iff_eq.mpr (by rw [he])
  rw [hstep]
  have hmap : tcs.countP (fun tc2 => tc2.id == tc.id)
      = (tcs.map RawToolCall.id).countP (fun x => x == tc.id) := by
    rw [List.countP_map]
    rfl
  rw [hmap, ← List.count_eq_countP]
  exact List.count_eq_one_of_mem hnd (List.mem_map_of_mem RawToolCall.id htc)

theorem toolInvAux_of_tools (l : List RawToolCall) :
    ∀ msgs : List Message,
      (∀ m ∈ msgs, m.role = "tool" ∧
        l.countP (fun tc => m.toolCallId == some tc.id) = 1) →
      toolInvAux l msgs = true := by
  intro msgs
  induction msgs with
  | nil => intro _; rfl
  | cons m ms ih =>
    intro h
    obtain ⟨hrole, hcount⟩ := h m (List.mem_cons_self m ms)
    have hne : ¬ (m.role = "assistant") := by
      rw [hrole]
      decide
    simp only [toolInvAux]
    rw [if_neg hne, if_pos hrole, hcount,
      ih (fun m2 hm2 => h m2 (List.mem_cons_of_mem m hm2))]
    rfl

theorem toolInvAux_round (l : List RawToolCall) (toks : List String)
    (tcs : List RawToolCall) (records : Option (List ToolCallRecord))
    (tmsgs : List Message) (hnd : (tcs.map RawToolCall.id).Nodup)
    (hmsgs : ∀ m ∈ tmsgs, m.role = "tool" ∧ ∃ tc ∈ tcs, m.toolCallId = some tc.id) :
    toolInvAux l (assistantReasoningMsg toks tcs records :: tmsgs) = true := by
  have hrole : (assistantReasoningMsg toks tcs records).role = "assistant" := rfl
  simp only [toolInvAux]
  rw [if_pos hrole]
  have hraw : ((assistantReasoningMsg toks tcs records).rawToolCalls.getD []) = tcs := rfl
  rw [hraw]
  apply toolInvAux_of_tools
  intro m hm
  obtain ⟨hr, tc, htc, hid⟩ := hmsgs m hm
  refine ⟨hr, ?_⟩
  rw [hid]
  exact countP_id_eq_one tcs hnd tc htc

theorem runToolCalls_toolMsgs (db : String → DbResult) :
    ∀ tcs : List RawToolCall, ∀ m ∈ (runToolCalls db tcs).toolMsgs,
      m.role = "tool" ∧ ∃ tc ∈ tcs, m.toolCallId = some tc.id := by
  intro tcs
  induction tcs with
  | nil => intro m hm; cases hm
  | cons tc rest ih =>
    intro m hm
    cases harg : tc.arguments with
    | malformed raw =>
      rw [show (runToolCalls db (tc :: rest)).toolMsgs = [] by
        simp [runToolCalls, harg, ToolLoopResult.toolMsgs]] at hm
      cases hm
    | obj raw q? =>
      cases hex : executeTool db tc.name tc.arguments with
      | error exn =>
        rw [harg] at hex
        rw [show (runToolCalls db (tc :: rest)).toolMsgs = [] by
          simp [runToolCalls, harg, hex, ToolLoopResult.toolMsgs]] at hm
        cases hm
      | ok payload =>
        rw [harg] at hex
        cases hrec : runToolCalls db rest with
        | ok evs2 recs2 msgs2 anyF2 =>
          rw [show (runToolCalls db (tc :: rest)).toolMsgs
              = mkMessage "tool" (some (serializePayload payload)) "tool" none
                  (some tc.id) none :: msgs2 by
            simp [runToolCalls, harg, hex, hrec, ToolLoopResult.toolMsgs]] at hm
          rcases List.mem_cons.mp hm with hm1 | hm2
          · rw [hm1]
            exact ⟨rfl, tc, List.mem_cons_self tc rest, rfl⟩
          · obtain ⟨hr, tc2, htc2, hid⟩ := ih m (by rw [hrec]; exact hm2)
            exact ⟨hr, tc2, List.mem_cons_of_mem tc htc2, hid⟩
        | raised evs2 msgs2 exn =>
          rw [show (runToolCalls db (tc :: rest)).toolMsgs
              = mkMessage "tool" (some (serializePayload payload)) "tool" none
                  (some tc.id) none :: msgs2 by
            simp [runToolCalls, harg, hex, hrec, ToolLoopResult.toolMsgs]] at hm
          rcases List.mem_cons.mp hm with hm1 | hm2
          · rw [hm1]
            exact ⟨rfl, tc, List.mem_cons_self tc rest, rfl⟩
          · obtain ⟨hr, tc2, htc2, hid⟩ := ih m (by rw [hrec]; exact hm2)
            exact ⟨hr, tc2, List.mem_cons_of_mem tc htc2, hid⟩

theorem toolInvAux_snoc_nontool (l : List RawToolCall) (msgs : List Message) (m : Message)
    (hm : m.role ≠ "tool") (h : toolInvAux l msgs = true) :
    toolInvAux l (msgs ++ [m]) = true := by
  rw [toolInvAux_append, h, Bool.true_and]
  by_cases h1 : m.role = "assistant"
  · simp [toolInvAux, h1]
  · simp [toolInvAux, h1, hm]

theorem convInv_addMessage (c : Conversation) (m : Message) (hm : m.role ≠ "tool")
    (h : toolInvariantB c.messages = true) :
    toolInvariantB (c.addMessage m).messages = true := by
  show toolInvAux [] (c.addMessage m).messages = true
  rw [addMessage_messages]
  exact toolInvAux_snoc_nontool [] c.messages m hm h

theorem convInv_round (conv : Conversation) (toks : List String)
    (tcs : List RawToolCall) (records : Option (List ToolCallRecord))
    (tmsgs : List Message) (hnd : (tcs.map RawToolCall.id).Nodup)
    (hmsgs : ∀ m ∈ tmsgs, m.role = "tool" ∧ ∃ tc ∈ tcs, m.toolCallId = some tc.id)
    (h : toolInvariantB conv.messages = true) :
    toolInvariantB ((conv.addMessage (assistantReasoningMsg toks tcs records)).addMessages
      tmsgs).messages = true := by
  show toolInvAux []
    ((conv.addMessage (assistantReasoningMsg toks tcs records)).addMessages tmsgs).messages
    = true
  rw [addMessages_messages, addMessage_messages, List.append_assoc]
  rw [toolInvAux_append]
  have h0 : toolInvAux [] conv.messages = true := h
  rw [h0, Bool.true_and]
  show toolInvAux (lastRawAfter [] conv.messages)
    (assistantReasoningMsg toks tcs records :: tmsgs) = true
  exact toolInvAux_round _ toks tcs records tmsgs hnd hmsgs

theorem interpretPhase_inv (env : BotEnv) (conv : Conversation) (api : List ApiMsg)
    (script : List ProviderResp) (h : toolInvariantB conv.messages = true) :
    toolInvariantB (interpretPhase env conv api script).conversation.messages = true := by
  have hint : ∀ (reqs : List (List ApiMsg)) (toks : List String),
      toolInvariantB (interpretDone conv reqs toks).conversation.messages = true := by
    intro reqs toks
    show toolInvariantB (conv.addMessage
      (mkMessage "assistant" (some (roundFull toks)) "interpret" none none none)).messages
      = true
    exact convInv_addMessage conv _ (show ("assistant" : String) ≠ "tool" by decide) h
  cases script with
  | nil => exact h
  | cons r rest =>
    cases r with
    | success toks tcs => exact hint [api] toks
    | badRequest m => exact h
    | contextLengthExceeded =>
      cases rest with
      | nil => exact h
      | cons r2 rest2 =>
        cases r2 with
        | success toks tcs =>
          exact hint [api, buildApiMessages env.enc conv (interpretSystem env) 12000] toks
        | badRequest m => exact h
        | contextLengthExceeded => exact h

theorem runLoop_inv (env : BotEnv) :
    ∀ script : List ProviderResp, script.all respIdsNodup = true →
    ∀ (second : Bool) (conv : Conversation) (api : List ApiMsg),
      toolInvariantB conv.messages = true →
      toolInvariantB (runLoop env second conv api script).conversation.messages = true := by
  intro script
  induction script with
  | nil => intro _ second conv api h; exact h
  | cons r rest ih =>
    intro hall second conv api h
    rw [List.all_cons, Bool.and_eq_true] at hall
    obtain ⟨hresp, hrest⟩ := hall
    cases r with
    | badRequest m => exact h
    | contextLengthExceeded =>
      cases second with
      | true => exact h
      | false =>
        show toolInvariantB (runLoop env true conv
          (buildApiMessages env.enc conv (reasoningSystem env) 12000)
            rest).conversation.messages = true
        exact ih hrest true conv _ h
    | success toks tcs =>
      by_cases htc : tcs = []
      · simp only [runLoop, htc, if_pos rfl]
        exact convInv_addMessage conv _ (show ("assistant" : String) ≠ "tool" by decide) h
      · have hnd : (tcs.map RawToolCall.id).Nodup := of_decide_eq_true hresp
        cases hrun : runToolCalls env.db tcs with
        | raised tevs tmsgs exn =>
          simp only [runLoop, hrun]
          rw [if_neg htc]
          have hmsgs : ∀ m ∈ tmsgs, m.role = "tool" ∧
              ∃ tc ∈ tcs, m.toolCallId = some tc.id := by
            intro m hm
            exact runToolCalls_toolMsgs env.db tcs m (by rw [hrun]; exact hm)
          exact convInv_round conv toks tcs none tmsgs hnd hmsgs h
        | ok tevs records tmsgs anyFailed =>
          simp only [runLoop, hrun]
          rw [if_neg htc]
          have hmsgs : ∀ m ∈ tmsgs, m.role = "tool" ∧
              ∃ tc ∈ tcs, m.toolCallId = some tc.id := by
            intro m hm
            exact runToolCalls_toolMsgs env.db tcs m (by rw [hrun]; exact hm)
          have hconv2 : toolInvariantB ((conv.addMessage
              (assistantReasoningMsg toks tcs (some records))).addMessages
                tmsgs).messages = true :=
            convInv_round conv toks tcs (some records) tmsgs hnd hmsgs h
          cases anyFailed with
          | true =>
            rw [if_pos rfl]
            exact ih hrest false _ _ hconv2
          | false =>
            rw [if_neg (by simp)]
            exact interpretPhase_inv env _ _ rest hconv2

theorem refreshSystemPrompt_inv (sys : String) (c : Conversation)
    (h : toolInvariantB c.messages = true) :
    toolInvariantB (refreshSystemPrompt sys c).messages = true := by
  unfold refreshSystemPrompt
  cases hm : c.messages with
  | nil => exact h
  | cons m rest =>
    show toolInvariantB
      (if m.role = "system" then
        ({ id := c.id,
           messages := ({ role := m.role, content := some sys, type := m.type,
                          toolCalls := m.toolCalls, toolCallId := m.toolCallId,
                          timestamp := m.timestamp,
                          rawToolCalls := m.rawToolCalls } : Message) :: rest,
           createdAt := c.createdAt, lastMessage := c.lastMessage } : Conversation)
       else c).messages = true
    by_cases hr : m.role = "system"
    · rw [if_pos hr]
      have h2 : toolInvAux [] (m :: rest) = true := by
        rw [← hm]
        exact h
      have hne1 : ¬ (m.role = "assistant") := by rw [hr]; decide
      have hne2 : ¬ (m.role = "tool") := by rw [hr]; decide
      rw [toolInvAux_cons_other [] m rest hne1 hne2] at h2
      have hne1b : ¬ (({ m with content := some sys } : Message).role = "assistant") := hne1
      have hne2b : ¬ (({ m with content := some sys } : Message).role = "tool") := hne2
      show toolInvAux [] (({ m with content := some sys } : Message) :: rest) = true
      rw [toolInvAux_cons_other [] ({ m with content := some sys } : Message) rest hne1b hne2b]
      exact h2
    · rw [if_neg hr]
      exact h

theorem createConversation_inv (freshId sys : String) :
    toolInvariantB (createConversation freshId sys).messages = true := by
  have hne1 : ¬ ((systemMessage sys).role = "assistant") := by
    show ¬ (("system" : String) = "assistant")
    decide
  have hne2 : ¬ ((systemMessage sys).role = "tool") := by
    show ¬ (("system" : String) = "tool")
    decide
  show toolInvAux [] ([] ++ [systemMessage sys]) = true
  rw [List.nil_append]
  rw [toolInvAux_cons_other [] (systemMessage sys) [] hne1 hne2]
  rfl

theorem startConversation_inv (env : BotEnv) (freshId : String)
    (conversationId : Option String) (userMessage : String) (store : Store)
    (hstore : store.all (fun p => toolInvariantB p.2.messages) = true) :
    toolInvariantB (startConversation env freshId conversationId userMessage store).messages
      = true := by
  unfold startConversation
  have hu : (mkMessage "user" (some userMessage) "request" none none none).role ≠ "tool" := by
    show ("user" : String) ≠ "tool"
    decide
  apply convInv_addMessage _ _ hu
  apply refreshSystemPrompt_inv
  unfold resolveConversation
  cases hl : storeLookup store (conversationId.getD "") with
  | some c =>
    show toolInvariantB c.messages = true
    unfold storeLookup at hl
    cases hf : store.find? (fun p => p.1 = conversationId.getD "") with
    | none =>
      rw [hf] at hl
      cases hl
    | some p =>
      rw [hf] at hl
      have hp2 : p.2 = c := by simpa using hl
      have hpm : p ∈ store := List.mem_of_find?_eq_some hf
      have hall := List.all_eq_true.mp hstore p hpm
      rw [← hp2]
      exact hall
  | none => exact createConversation_inv freshId env.systemPrompt

theorem storeSet_all (store : Store) (k : String) (c : Conversation)
    (P : String × Conversation → Bool) (h : store.all P = true) (hc : P (k, c) = true) :
    (storeSet store k c).all P = true := by
  unfold storeSet
  rw [List.all_map]
  rw [List.all_eq_true] at h ⊢
  intro p hp
  show P (if p.1 = k then (k, c) else p) = true
  by_cases hk : p.1 = k
  · rw [if_pos hk]
    exact hc
  · rw [if_neg hk]
    exact h p hp

theorem startStore_all (env : BotEnv) (freshId : String) (conversationId : Option String)
    (store : Store) (P : String × Conversation → Bool) (h : store.all P = true)
    (hc : P (freshId, createConversation freshId env.systemPrompt) = true) :
    (startStore env freshId conversationId store).all P = true := by
  unfold startStore resolveConversation
  cases hl : storeLookup store (conversationId.getD "") with
  | some c => exact h
  | none =>
    show (store ++ [(freshId, createConversation freshId env.systemPrompt)]).all P = true
    rw [List.all_append, h, Bool.true_and, List.all_cons, hc, Bool.true_and]
    rfl

/-- C9 counterexample: the invariant as stated fails on a reachable state.
When one provider reasoning response carries two tool-call requests sharing
the association id `call_dup`, the loop appends one `tool`-role message per
request, and each such message's `tool_call_id` matches two requests of the
immediately preceding assistant message's `_raw_tool_calls`, not exactly
one; the conversation left in the store violates the invariant. -/
theorem c9_counterexample :
    (processMessageEvents sampleEnv "fresh"
        [ProviderResp.success [] [dupCallA, dupCallB]] "hi" none []).store.all
      (fun p => toolInvariantB p.2.messages) = false := by decide

/-- C9 (amended): provided each provider reasoning response carries
pairwise-distinct tool-call ids, every conversation state the orchestrator's
message processing can leave in the store satisfies the tool-association
invariant: each `tool`-role message's `tool_call_id` matches exactly one
tool-call request (by id) carried in the `_raw_tool_calls` of the nearest
preceding assistant message, whenever the store's prior conversations
satisfied it. -/
theorem c9_tool_association (env : BotEnv) (freshId : String)
    (script : List ProviderResp) (userMessage : String)
    (conversationId : Option String) (store : Store)
    (hstore : store.all (fun p => toolInvariantB p.2.messages) = true)
    (hscript : script.all respIdsNodup = true) :
    (processMessageEvents env freshId script userMessage conversationId store).store.all
      (fun p => toolInvariantB p.2.messages) = true := by
  rw [processMessageEvents_eq]
  show (storeSet (startStore env freshId conversationId store) _ _).all
    (fun p => toolInvariantB p.2.messages) = true
  apply storeSet_all
  · exact startStore_all env freshId conversationId store _ hstore
      (createConversation_inv freshId env.systemPrompt)
  · show toolInvariantB (runLoop env false
        (startConversation env freshId conversationId userMessage store)
        (buildApiMessages env.enc
          (startConversation env freshId conversationId userMessage store)
          (reasoningSystem env) MAX_REQUEST_TOKENS) script).conversation.messages = true
    exact runLoop_inv env script hscript false _ _
      (startConversation_inv env freshId conversationId userMessage store hstore)

theorem c9_tool_association_witness :
    (processMessageEvents sampleEnv "fresh"
        [ProviderResp.success [] [goodCall, badQueryCall]] "hi" none []).store.all
      (fun p => toolInvariantB p.2.messages) = true :=
  c9_tool_association sampleEnv "fresh" [ProviderResp.success [] [goodCall, badQueryCall]]
    "hi" none [] (by decide) (by decide)

end OpsAssistant
